import Mathlib

/-! Package csv2struct.

A shallow embedding of `csv2struct.go` (package `csv2struct`) and a verification of its
field-mapping engine: header renaming, the column-presence check, the per-row coercion loop,
struct synthesis from a header row and the column-type report.

The embedding starts where the Go code has obtained `records` from `reader.ReadAll()`:
opening the file and tokenising CSV text belong to `os` and `encoding/csv`.  Go values that
`reflect` manipulates are represented explicitly: a struct type is the list of its fields, a
struct value is the list of its field values, and the slice behind the `out` pointer is passed
in and returned.
-/

namespace Csv2struct

/-! ## Go strings and maps -/

/-- A Go `string`: a sequence of bytes, not necessarily valid UTF-8. -/
abbrev GoString := List UInt8

/-- The bytes a Go string literal with the given text denotes (its UTF-8 encoding). -/
def str (s : String) : GoString := s.toUTF8.data.toList

/-- A Go `map[string]β`, kept as an association list whose keys are pairwise distinct as long
as it is built with `GoMap.set`; the list order is the order of first insertion and carries no
meaning for Go. -/
abbrev GoMap (β : Type) := List (GoString × β)

namespace GoMap

/-- The comma-ok lookup `v, ok := m[k]`. -/
def get? {β : Type} : GoMap β → GoString → Option β
  | [], _ => none
  | (k', v) :: rest, k => if k' = k then some v else get? rest k

/-- The assignment `m[k] = v`: overwrites the binding of `k` when there is one. -/
def set {β : Type} : GoMap β → GoString → β → GoMap β
  | [], k, v => [(k, v)]
  | (k', v') :: rest, k, v => if k' = k then (k, v) :: rest else (k', v') :: set rest k v

/-- The keys of the map. -/
def keys {β : Type} (m : GoMap β) : List GoString := m.map Prod.fst

end GoMap

/-! ## The view `reflect` gives of struct types and values -/

/-- The kinds of `reflect.Kind`. -/
inductive Kind
  | Invalid | Bool | Int | Int8 | Int16 | Int32 | Int64
  | Uint | Uint8 | Uint16 | Uint32 | Uint64 | Uintptr
  | Float32 | Float64 | Complex64 | Complex128
  | Array | Chan | Func | Interface | Map | Pointer | Slice | String | Struct | UnsafePointer
  deriving DecidableEq, Repr

/-- What the code reads from a `reflect.Type`: `Name()` and `Kind()`. -/
structure RType where
  /-- The result of `Type.Name()`: the name of a defined or predeclared type, "" otherwise -/
  Name : GoString
  /-- The result of `Type.Kind()` -/
  Kind : Csv2struct.Kind
  deriving DecidableEq, Repr

/-- The predeclared type `string`, `reflect.TypeOf("")`. -/
def RType.string : RType := ⟨str "string", .String⟩

/-- The predeclared type `int`. -/
def RType.int : RType := ⟨str "int", .Int⟩

/-- The predeclared type `float64`. -/
def RType.float64 : RType := ⟨str "float64", .Float64⟩

/-- A `reflect.StructField`, with the members the code reads or writes (`Type` is spelled
`Typ`).  `PkgPath` is empty exactly for exported fields. -/
structure StructField where
  Name : GoString
  PkgPath : GoString := []
  Typ : RType
  Tag : GoString := []
  deriving DecidableEq, Repr

/-- A `float64`, given by its IEEE-754 bit pattern (`math.Float64bits`); `+0.0` is pattern 0. -/
structure Float64 where
  bits : Nat
  deriving DecidableEq, Repr

/-- The value held by one field of a struct value.  Fields of a kind other than `string`, `int`
and `float64` are never written by this package, so all that is recorded of them is that they
hold their zero value. -/
inductive Value
  | str (s : GoString)
  | int (n : Int)
  | float (f : Float64)
  | zero
  deriving DecidableEq, Repr

/-- A struct value: the values of its fields, in declaration order. -/
abbrev Record := List Value

/-- The zero value of a field of the given type. -/
def zeroValue (t : RType) : Value :=
  match t.Kind with
  | .String => .str []
  | .Int => .int 0
  | .Float64 => .float ⟨0⟩
  | _ => .zero

/-- The struct value `reflect.New(structType).Elem()`: every field at its zero value. -/
def newElem (structType : List StructField) : Record :=
  structType.map (fun field => zeroValue field.Typ)

/-- The errors the package creates with `fmt.Errorf`, one constructor per message:
* `EmptyDataSet`: "CSV file must have at least one data row"
* `EmptyInput`: "CSV file must have at least one header row"
* `MissingColumn c`: "missing required column: c"
* `CannotSet t`: "cannot set value for field t"
* `TypeCoercionError v t`: "failed to convert v to t: ..." (`t` is "int" or "float64")
* `UnsupportedType t`: "unsupported field type: t" -/
inductive Error
  | EmptyDataSet
  | EmptyInput
  | MissingColumn (colName : GoString)
  | CannotSet (typeName : GoString)
  | TypeCoercionError (value : GoString) (targetType : GoString)
  | UnsupportedType (typeName : GoString)
  deriving DecidableEq, Repr

/-- The panics of `reflect.StructOf` that a list of named, typed, non-embedded fields can
cause. -/
inductive StructOfPanic
  | NoName (i : Nat)
  | InvalidName (i : Nat)
  | MissingPkgPath (name : GoString)
  | DifferentPkgPath (a b : GoString)
  | DuplicateField (name : GoString)
  deriving DecidableEq, Repr

/-- How a call that returns `(value, error)` can end: with a value, with an error, or in a
panic raised by `reflect.StructOf`. -/
inductive Outcome (α : Type)
  | ok (a : α)
  | error (e : Error)
  | panic (p : StructOfPanic)
  deriving DecidableEq, Repr

/-! ## What the package takes from the Go runtime and standard library -/

/-- The library functions and runtime behaviour the package depends on and that are kept
abstract: every theorem holds for every `Runtime`. -/
structure Runtime where
  /-- The method `reflect.StructTag.Get`: tag, then key; "" when the tag has no such key -/
  tagGet : GoString → GoString → GoString
  /-- The call `strconv.ParseFloat(s, 64)`; `none` when it returns a non-nil error -/
  ParseFloat : GoString → Option Float64
  /-- The check `isValidFieldName` of package reflect: is the string a Go identifier -/
  isValidFieldName : GoString → Bool
  /-- The order in which one `range` over a map with the given keys visits them; Go leaves
  it unspecified -/
  rangeOrder : List GoString → List GoString
  /-- A `range` over a map visits every key exactly once -/
  rangeOrder_perm : ∀ keys, (rangeOrder keys).Perm keys

/-! ## strconv.Atoi -/

/-- The size in bits of an `int` (`strconv.IntSize` on 64-bit platforms). -/
def intSize : Nat := 64

/-- Modelled from the spec: the digits loop of `strconv.Atoi` of Go's standard library,
which is not part of the repository; the specification has it parse base 10 and reject
non-digit characters.  It fails on the first byte that is not an ASCII decimal digit.  The
accumulator is unbounded here; the range check is made by `Atoi`. -/
def parseDigits : List UInt8 → Nat → Option Nat
  | [], n => some n
  | ch :: rest, n =>
    if 48 ≤ ch.toNat ∧ ch.toNat ≤ 57 then parseDigits rest (n * 10 + (ch.toNat - 48)) else none

/-- Modelled from the spec: the function `strconv.Atoi` of Go's standard library, which is
not part of the repository; `none` stands for a non-nil error.  The specification has it
parse a base-10 signed integer and fail on leading or trailing whitespace, non-digit
characters, the empty string and overflow: an optional `+` or `-`, then at least one decimal
digit and nothing else, the value within the range of `int`. -/
def Atoi (s : GoString) : Option Int :=
  match s with
  | [] => none
  | s0 :: rest =>
    let digits := if s0 = 45 ∨ s0 = 43 then rest else s
    match digits with
    | [] => none
    | _ =>
      match parseDigits digits 0 with
      | none => none
      | some un =>
        if s0 = 45 then
          if un > 2 ^ (intSize - 1) then none else some (-(un : Int))
        else
          if un ≥ 2 ^ (intSize - 1) then none else some (un : Int)

/-! ## The package -/

/-- The struct `CSV2Struct`. -/
structure CSV2Struct where
  customMap : GoMap GoString

/-- The constructor `NewCSV2Struct`: an empty custom map. -/
def NewCSV2Struct : CSV2Struct := ⟨[]⟩

/-- The method `SetCustomMap`. -/
def SetCustomMap (_c : CSV2Struct) (customMap : GoMap GoString) : CSV2Struct := ⟨customMap⟩

/-- The function `strings.ToUpper` on a string of one byte `c`: an ASCII byte is upper-cased
when it is a lower-case letter and returned as it is otherwise; a byte from 0x80 up, alone not
valid UTF-8, is mapped as the rune U+FFFD and comes back as that rune's three-byte encoding. -/
def ToUpper1 (c : UInt8) : GoString :=
  if c.toNat < 128 then
    (if 97 ≤ c.toNat ∧ c.toNat ≤ 122 then [c - 32] else [c])
  else [0xEF, 0xBF, 0xBD]

/-- The function `capitalize`: `strings.ToUpper(str[:1]) + str[1:]`, where `str[:1]` is the
first byte of the string. -/
def capitalize (s : GoString) : GoString :=
  match s with
  | [] => []
  | c :: rest => ToUpper1 c ++ rest

/-- The function `setFieldValue`: the value the field holds after the call, or the error
returned.  `CanSet` holds for a field of an addressable struct exactly when it is exported. -/
def setFieldValue (L : Runtime) (field : StructField) (value : GoString) : Except Error Value :=
  if field.PkgPath ≠ [] then
    .error (.CannotSet field.Typ.Name)
  else
    match field.Typ.Kind with
    | .String => .ok (.str value)
    | .Int =>
      match Atoi value with
      | none => .error (.TypeCoercionError value (str "int"))
      | some intValue => .ok (.int intValue)
    | .Float64 =>
      match L.ParseFloat value with
      | none => .error (.TypeCoercionError value (str "float64"))
      | some floatValue => .ok (.float floatValue)
    | _ => .error (.UnsupportedType field.Typ.Name)

/-- The column name of a field: its `csv` tag, or its name when the tag is empty
(`LoadCSV` lines 54-57, `GetColumnType` lines 143-146). -/
def colName (L : Runtime) (field : StructField) : GoString :=
  let c := L.tagGet field.Tag (str "csv")
  if c = [] then field.Name else c

/-- The renaming loop of `LoadCSV` (lines 43-47), with `n` iterations left and `i` the index
of the next one: `headers[i]` is read and, when it is a key of the custom map, overwritten in
place with the value bound to it. -/
def renameLoop (customMap : GoMap GoString) : Nat → Nat → List GoString → List GoString
  | 0, _, headers => headers
  | n + 1, i, headers =>
    match headers[i]? with
    | none => headers
    | some h =>
      match customMap.get? h with
      | some customName => renameLoop customMap n (i + 1) (headers.set i customName)
      | none => renameLoop customMap n (i + 1) headers

/-- The header row after the renaming loop of `LoadCSV` (lines 42-47). -/
def resolveHeaders (customMap : GoMap GoString) (headers : List GoString) : List GoString :=
  renameLoop customMap headers.length 0 headers

/-- The loop of `LoadCSV` that fills `structFields` (lines 52-59), from field index `i` on. -/
def structFieldsFrom (L : Runtime) : Nat → List StructField → GoMap Nat → GoMap Nat
  | _, [], structFields => structFields
  | i, field :: rest, structFields =>
    structFieldsFrom L (i + 1) rest (structFields.set (colName L field) i)

/-- The map `structFields` of `LoadCSV` (lines 51-59): column name to field index. -/
def buildStructFields (L : Runtime) (structType : List StructField) : GoMap Nat :=
  structFieldsFrom L 0 structType []

/-- The check for missing columns of `LoadCSV` (lines 62-73): the first key of `structFields`,
in the order the `range` visits them, that equals no header. -/
def missingColumn (L : Runtime) (structFields : GoMap Nat) (headers : List GoString) :
    Option GoString :=
  (L.rangeOrder structFields.keys).find? (fun colName => decide (colName ∉ headers))

/-- The inner loop of `LoadCSV` (lines 77-90) over the cells of one record, from cell index `i`
on; `elem` is the struct value being filled. -/
def fillElem (L : Runtime) (structType : List StructField) (headers : List GoString)
    (structFields : GoMap Nat) : Nat → List GoString → Record → Except Error Record
  | _, [], elem => .ok elem
  | i, field :: rest, elem =>
    match headers[i]? with
    | none => fillElem L structType headers structFields (i + 1) rest elem
    | some header =>
      match structFields.get? header with
      | none => fillElem L structType headers structFields (i + 1) rest elem
      | some fieldIndex =>
        match structType[fieldIndex]? with
        | none => fillElem L structType headers structFields (i + 1) rest elem
        | some fieldType =>
          match setFieldValue L fieldType field with
          | .error err => .error err
          | .ok v =>
            fillElem L structType headers structFields (i + 1) rest (elem.set fieldIndex v)

/-- The outer loop of `LoadCSV` (lines 75-92) over the data rows: the slice behind `out` after
the loop and the error returned, if any. -/
def appendRows (L : Runtime) (structType : List StructField) (headers : List GoString)
    (structFields : GoMap Nat) : List (List GoString) → List Record → List Record × Option Error
  | [], out => (out, none)
  | record :: rest, out =>
    match fillElem L structType headers structFields 0 record (newElem structType) with
    | .error err => (out, some err)
    | .ok elem => appendRows L structType headers structFields rest (out ++ [elem])

/-- The method `LoadCSV`, from the point where `records` has been read.  `structType` is the
element type of the slice `out` points to, `out` that slice on entry; the result is the slice
on return together with the returned error (`none` for `nil`). -/
def LoadCSV (L : Runtime) (c : CSV2Struct) (records : List (List GoString))
    (structType : List StructField) (out : List Record) : List Record × Option Error :=
  if records.length < 2 then
    (out, some .EmptyDataSet)
  else
    let headers := resolveHeaders c.customMap (records.headD [])
    let structFields := buildStructFields L structType
    match missingColumn L structFields headers with
    | some colName => (out, some (.MissingColumn colName))
    | none => appendRows L structType headers structFields (records.drop 1) out

/-- The method `GetColumnType`: the map `types` after the loop over the fields. -/
def GetColumnType (L : Runtime) (c : CSV2Struct) (structType : List StructField) :
    GoMap GoString :=
  structType.foldl (fun (types : GoMap GoString) field =>
    let colName := colName L field
    let colName :=
      match c.customMap.get? colName with
      | some customName => customName
      | none => colName
    types.set colName field.Typ.Name) []

/-- The loop of `reflect.StructOf` over fields, none of them embedded: `i` is the index of the
next field, `pkgpath` the package path seen so far and `fset` the names seen so far.  `none`
means that no check panicked. -/
def structOfLoop (L : Runtime) :
    Nat → GoString → List GoString → List StructField → Option StructOfPanic
  | _, _, _, [] => none
  | i, pkgpath, fset, field :: rest =>
    if field.Name = [] then some (.NoName i)
    else if !L.isValidFieldName field.Name then some (.InvalidName i)
    else if field.PkgPath = [] ∧
        ((97 ≤ (field.Name.headD 0).toNat ∧ (field.Name.headD 0).toNat ≤ 122) ∨
          field.Name.headD 0 = 95) then
      some (.MissingPkgPath field.Name)
    else if field.PkgPath ≠ [] ∧ pkgpath ≠ [] ∧ pkgpath ≠ field.PkgPath then
      some (.DifferentPkgPath pkgpath field.PkgPath)
    else if field.Name ∈ fset ∧ field.Name ≠ [95] then some (.DuplicateField field.Name)
    else
      structOfLoop L (i + 1) (if field.PkgPath ≠ [] ∧ pkgpath = [] then field.PkgPath else pkgpath)
        (field.Name :: fset) rest

/-- The function `reflect.StructOf` on fields none of which is embedded: it panics, or
returns the struct type with exactly the given fields. -/
def StructOf (L : Runtime) (fields : List StructField) : Except StructOfPanic (List StructField) :=
  match structOfLoop L 0 [] [] fields with
  | some p => .error p
  | none => .ok fields

/-- The method `GenerateStruct`, from the point where `records` has been read.  The value
returned by the Go code is an empty slice whose element type is the synthesised struct type;
the result here is that struct type. -/
def GenerateStruct (L : Runtime) (_c : CSV2Struct) (records : List (List GoString)) :
    Outcome (List StructField) :=
  if records.length < 1 then
    .error .EmptyInput
  else
    let headers := records.headD []
    let structFields : List StructField := headers.map (fun header =>
      { Name := capitalize header
        Typ := RType.string
        Tag := str "csv:\"" ++ header ++ str "\"" })
    match StructOf L structFields with
    | .error p => .panic p
    | .ok structType => .ok structType

/-! ## A runtime to evaluate examples with -/

/-- Reads the value of `key` in a tag made of `key:"value"` pairs separated by single spaces,
the values free of quotes and backslashes; on such tags this is `reflect.StructTag.Get`. -/
def plainTagGet (tag key : GoString) : GoString :=
  let pairs := tag.splitOn 32
  match pairs.find? (fun p => (key ++ [58, 34]).isPrefixOf p ∧ p.getLast? = some 34) with
  | none => []
  | some p => (p.drop (key.length + 2)).dropLast

/-- ASCII identifiers: a letter or underscore, then letters, digits and underscores. -/
def asciiIdentifier (s : GoString) : Bool :=
  let letter := fun (b : UInt8) =>
    (97 ≤ b.toNat ∧ b.toNat ≤ 122) ∨ (65 ≤ b.toNat ∧ b.toNat ≤ 90) ∨ b = 95
  let digit := fun (b : UInt8) => 48 ≤ b.toNat ∧ b.toNat ≤ 57
  match s with
  | [] => false
  | b :: rest => decide (letter b) && rest.all (fun x => decide (letter x ∨ digit x))

/-- A runtime for the examples: tags are read by `plainTagGet`, identifiers are the ASCII
ones and a `range` visits the keys in the order of their first insertion.  The examples have
no `float64` field, so that `ParseFloat` is never called in them; it is set to fail. -/
def exampleRuntime : Runtime where
  tagGet := plainTagGet
  ParseFloat := fun _ => none
  isValidFieldName := asciiIdentifier
  rangeOrder := fun keys => keys
  rangeOrder_perm := fun _ => List.Perm.refl _

/-- The struct type `Person` of the package's tests. -/
def Person : List StructField :=
  [ { Name := str "Name", Typ := RType.string, Tag := str "csv:\"name\"" },
    { Name := str "Age", Typ := RType.int, Tag := str "csv:\"age\"" },
    { Name := str "Email", Typ := RType.string, Tag := str "csv:\"email\"" } ]

/-- The rows of `example/example.csv`. -/
def exampleRecords : List (List GoString) :=
  [ [str "name", str "age", str "email"],
    [str "John Doe", str "30", str "j@x.com"],
    [str "Jane", str "25", str "jane@x.com"] ]

/-- The rows of `example/example.csv` with the age of the second person unreadable. -/
def malformedRecords : List (List GoString) :=
  [ [str "name", str "age", str "email"],
    [str "John Doe", str "30", str "j@x.com"],
    [str "Jane", str "abc", str "jane@x.com"] ]

/-- The rows of `example/example.csv` with the first data row cut after the second cell. -/
def shortRecords : List (List GoString) :=
  [ [str "name", str "age", str "email"],
    [str "John Doe", str "30"],
    [str "Jane", str "25", str "jane@x.com"] ]

/-! ## Notions used to state the properties -/

/-- In the words of the specification of the Header Resolver: an entry equal to a key of the
rename map is replaced by the value bound to it, any other entry passes through unchanged. -/
def renamed (customMap : GoMap GoString) (h : GoString) : GoString :=
  match customMap.get? h with
  | some customName => customName
  | none => h

/-- The header row `LoadCSV` matches columns against: the first record, renamed. -/
def headerRow (c : CSV2Struct) (records : List (List GoString)) : List GoString :=
  resolveHeaders c.customMap (records.headD [])

/-- The field a cell in column `i` is written to by the inner loop of `LoadCSV`
(lines 78-86), with its index: none when the column lies beyond the header row or its header
is no key of `structFields`. -/
def targetField (structType : List StructField) (headers : List GoString)
    (structFields : GoMap Nat) (i : Nat) : Option (Nat × StructField) :=
  match headers[i]? with
  | none => none
  | some header =>
    match structFields.get? header with
    | none => none
    | some fieldIndex =>
      match structType[fieldIndex]? with
      | none => none
      | some field => some (fieldIndex, field)

/-- The struct value the inner loop of `LoadCSV` builds from one record, or the error it
stops with. -/
def rowElem (L : Runtime) (c : CSV2Struct) (records : List (List GoString))
    (structType : List StructField) (record : List GoString) : Except Error Record :=
  fillElem L structType (headerRow c records) (buildStructFields L structType) 0 record
    (newElem structType)

/-- The cell in column `i` of `record` is dropped, or `setFieldValue` accepts it for the
field it is written to. -/
def cellCoerces (L : Runtime) (c : CSV2Struct) (records : List (List GoString))
    (structType : List StructField) (record : List GoString) (i : Nat) : Bool :=
  match targetField structType (headerRow c records) (buildStructFields L structType) i,
    record[i]? with
  | some (_, field), some cell => (setFieldValue L field cell).toBool
  | _, _ => true

/-- The inner loop of `LoadCSV` restated with the header row and the record consumed in step:
it ends with whichever of the two ends first. -/
def fillZip (L : Runtime) (structType : List StructField) (structFields : GoMap Nat) :
    List GoString → List GoString → Record → Except Error Record
  | _, [], elem => .ok elem
  | [], _ :: _, elem => .ok elem
  | header :: headers, field :: rest, elem =>
    match structFields.get? header with
    | none => fillZip L structType structFields headers rest elem
    | some fieldIndex =>
      match structType[fieldIndex]? with
      | none => fillZip L structType structFields headers rest elem
      | some fieldType =>
        match setFieldValue L fieldType field with
        | .error err => .error err
        | .ok v => fillZip L structType structFields headers rest (elem.set fieldIndex v)

/-- A row with one more cell `x` put at position `p`; a row too short to have a position `p`
is left as it is. -/
def insertColumn (p : Nat) (x : GoString) (row : List GoString) : List GoString :=
  match p, row with
  | 0, row => x :: row
  | _ + 1, [] => []
  | p + 1, cell :: rest => cell :: insertColumn p x rest

/-- The rows of `example/example_extra_columns.csv`: those of `example.csv` with a column
`phone` put before the column `email`. -/
def extraColumnRecords : List (List GoString) :=
  insertColumn 2 (str "phone") [str "name", str "age", str "email"] ::
    List.zipWith (insertColumn 2) [str "555-1234", str "555-5678"]
      [[str "John Doe", str "30", str "j@x.com"], [str "Jane", str "25", str "jane@x.com"]]

/-- The key under which `GetColumnType` reports a field: its column name, renamed. -/
def reportName (L : Runtime) (c : CSV2Struct) (field : StructField) : GoString :=
  renamed c.customMap (colName L field)

/-- The custom map of the test `TestCustomMap`. -/
def testCustomMap : GoMap GoString :=
  [(str "name", str "full_name"), (str "age", str "years")]

/-- The field `GenerateStruct` declares for a header. -/
def headerField (header : GoString) : StructField :=
  { Name := capitalize header
    PkgPath := []
    Typ := RType.string
    Tag := str "csv:\"" ++ header ++ str "\"" }

/-- The ASCII upper-case form of a byte: a lower-case ASCII letter is moved down by 32 onto
its capital, every other byte is its own upper-case form. -/
def asciiUpper (b : UInt8) : UInt8 :=
  if 97 ≤ b.toNat ∧ b.toNat ≤ 122 then b - 32 else b

/-- The method `GetColumnType` as a step on the receiver: the receiver after the call, which
the method only reads, and the map returned. -/
def GetColumnTypeCall (L : Runtime) (structType : List StructField) (c : CSV2Struct) :
    CSV2Struct × GoMap GoString :=
  (c, GetColumnType L c structType)

/-- Equality of the outcomes of a fallible function is decidable. -/
instance instDecidableEqExcept {ε α : Type} [DecidableEq ε] [DecidableEq α] :
    DecidableEq (Except ε α)
  | .ok a, .ok b =>
    if h : a = b then isTrue (by rw [h]) else isFalse (fun e => h (Except.ok.inj e))
  | .error a, .error b =>
    if h : a = b then isTrue (by rw [h]) else isFalse (fun e => h (Except.error.inj e))
  | .ok _, .error _ => isFalse (fun e => by cases e)
  | .error _, .ok _ => isFalse (fun e => by cases e)

/-- The number a string of decimal digits denotes in base 10, the first digit being the most
significant. -/
def decimalValue (digits : GoString) : Nat :=
  digits.foldl (fun n d => n * 10 + (d.toNat - 48)) 0

/-- In the words of the specification: `s` is a base-10 signed integer, an optional sign
followed by one or more ASCII decimal digits, it denotes `n`, and `n` fits the range of the
platform's `int`. -/
def IsSignedDecimal (s : GoString) (n : Int) : Prop :=
  ∃ sign digits : GoString, s = sign ++ digits ∧
    (sign = [] ∨ sign = [43] ∨ sign = [45]) ∧
    digits ≠ [] ∧ (∀ d ∈ digits, 48 ≤ d.toNat ∧ d.toNat ≤ 57) ∧
    n = (if sign = [45] then -(decimalValue digits : Int) else (decimalValue digits : Int)) ∧
    -(2 : Int) ^ (intSize - 1) ≤ n ∧ n < (2 : Int) ^ (intSize - 1)

/-- The field `Age int` of the struct `Person`. -/
def ageField : StructField :=
  { Name := str "Age", Typ := RType.int, Tag := str "csv:\"age\"" }

/-- The runtime of the examples with the one difference that a `range` visits the keys of a
map in the reverse of the order of their first insertion. -/
def reversedRuntime : Runtime where
  tagGet := plainTagGet
  ParseFloat := fun _ => none
  isValidFieldName := asciiIdentifier
  rangeOrder := fun keys => keys.reverse
  rangeOrder_perm := fun keys => List.reverse_perm keys

/-- A file with the column `name` only: the columns `age` and `email` of `Person` are
missing. -/
def nameOnlyRecords : List (List GoString) :=
  [[str "name"], [str "John Doe"]]

/-- A struct type with two fields that declare the column name `name`:
`Name string`, `Alias string` and `Age int`, tagged `name`, `name` and `age`. -/
def aliasPerson : List StructField :=
  [ { Name := str "Name", Typ := RType.string, Tag := str "csv:\"name\"" },
    { Name := str "Alias", Typ := RType.string, Tag := str "csv:\"name\"" },
    { Name := str "Age", Typ := RType.int, Tag := str "csv:\"age\"" } ]

/-- A file with the columns `name` and `age`. -/
def nameAgeRecords : List (List GoString) :=
  [[str "name", str "age"], [str "John Doe", str "30"]]

/-- A file in which the header `name` occurs twice. -/
def twoNameRecords : List (List GoString) :=
  [ [str "name", str "name", str "age"],
    [str "John Doe", str "Johnny", str "30"],
    [str "Jane", str "Janie", str "25"] ]

/-- The struct type with the fields `Name string` and `Age int` of `Person`. -/
def nameAge : List StructField :=
  [ { Name := str "Name", Typ := RType.string, Tag := str "csv:\"name\"" },
    { Name := str "Age", Typ := RType.int, Tag := str "csv:\"age\"" } ]

/-! ## The records as read from the file -/

/-- The error of `encoding/csv` for a record whose number of fields is not the expected one
(`csv.ErrFieldCount`, "wrong number of fields"); `record` is the index of that record in the
file, the header row having index 0. -/
inductive ReadError
  | FieldCount (record : Nat)
  deriving DecidableEq, Repr

/-- What `LoadCSV` returns as `error` when it is not `nil`: the error of `reader.ReadAll()`
passed on (lines 34-36), or one of the errors the package creates. -/
inductive FileError
  | Read (err : ReadError)
  | Package (err : Error)
  deriving DecidableEq, Repr

/-- The check of the reader on the records after the first: the index, counted from `i`, of
the first record whose number of fields is not `n`. -/
def fieldCountError (n : Nat) : Nat → List (List GoString) → Option Nat
  | _, [] => none
  | i, record :: rest =>
    if record.length ≠ n then some i else fieldCountError n (i + 1) rest

/-- The call `reader.ReadAll()` on `csv.NewReader(file)`, whose `FieldsPerRecord` is left at
0, given the records the tokenizer of the reader finds in the file; each of them has at least
one field, and a file that does not tokenise is not considered.  The number of fields of the
first record becomes the expected one, and the first later record with another number of
fields makes the call return `ErrFieldCount` and no records. -/
def ReadAll (rows : List (List GoString)) : Except ReadError (List (List GoString)) :=
  match rows with
  | [] => .ok []
  | first :: rest =>
    match fieldCountError first.length 1 rest with
    | some i => .error (.FieldCount i)
    | none => .ok (first :: rest)

/-- The method `LoadCSV` from the point where the file has been opened (lines 32-94): the
records are read with `reader.ReadAll()`, whose error is returned as it is with the slice
behind `out` untouched, and the rest of the method runs on the records read. -/
def LoadCSVFile (L : Runtime) (c : CSV2Struct) (rows : List (List GoString))
    (structType : List StructField) (out : List Record) : List Record × Option FileError :=
  match ReadAll rows with
  | .error err => (out, some (.Read err))
  | .ok records =>
    ((LoadCSV L c records structType out).1,
      (LoadCSV L c records structType out).2.map FileError.Package)

/-- The method `GenerateStruct` from the point where the file has been opened
(lines 105-129): the error of `reader.ReadAll()` is returned as it is, and the rest of the
method runs on the records read. -/
def GenerateStructFile (L : Runtime) (c : CSV2Struct) (rows : List (List GoString)) :
    Except ReadError (Outcome (List StructField)) :=
  match ReadAll rows with
  | .error err => .error err
  | .ok records => .ok (GenerateStruct L c records)

/-- The field `age int`, not exported, of a struct declared in package `main`. -/
def unexportedAge : StructField :=
  { Name := str "age", PkgPath := str "main", Typ := RType.int, Tag := str "csv:\"age\"" }

/-! ## Maps -/

namespace GoMap

theorem get?_set_self {β : Type} (m : GoMap β) (k : GoString) (v : β) :
    (m.set k v).get? k = some v := by
  induction m with
  | nil => simp [set, get?]
  | cons kv rest ih =>
    obtain ⟨k', v'⟩ := kv
    by_cases h : k' = k
    · simp [set, get?, h]
    · simp [set, get?, h, ih]

theorem get?_set_ne {β : Type} (m : GoMap β) (k k' : GoString) (v : β) (hne : k ≠ k') :
    (m.set k v).get? k' = m.get? k' := by
  induction m with
  | nil => simp [set, get?, hne]
  | cons kv rest ih =>
    obtain ⟨k₀, v₀⟩ := kv
    by_cases h : k₀ = k
    · subst h
      simp [set, get?, hne]
    · by_cases h' : k₀ = k'
      · subst h'
        simp [set, get?, h]
      · simp [set, get?, h, h', ih]

theorem mem_keys_set {β : Type} (m : GoMap β) (k k' : GoString) (v : β) :
    k' ∈ (m.set k v).keys ↔ k' = k ∨ k' ∈ m.keys := by
  induction m with
  | nil => simp [set, keys]
  | cons kv rest ih =>
    obtain ⟨k₀, v₀⟩ := kv
    by_cases h : k₀ = k
    · subst h
      simp [set, keys]
    · simp only [keys] at ih
      simp only [set, h, if_false, keys, List.map_cons, List.mem_cons, ih]
      tauto

theorem get?_eq_none_iff {β : Type} (m : GoMap β) (k : GoString) :
    m.get? k = none ↔ k ∉ m.keys := by
  induction m with
  | nil => simp [get?, keys]
  | cons kv rest ih =>
    obtain ⟨k₀, v₀⟩ := kv
    by_cases h : k₀ = k
    · simp [get?, keys, h]
    · simp only [keys] at ih
      simp only [get?, h, if_false, ih, keys, List.map_cons, List.mem_cons, not_or]
      constructor
      · intro hk
        exact ⟨fun e => h e.symm, hk⟩
      · intro hk
        exact hk.2

theorem mem_keys_of_get? {β : Type} (m : GoMap β) (k : GoString) (v : β)
    (h : m.get? k = some v) : k ∈ m.keys := by
  by_contra hk
  rw [(get?_eq_none_iff m k).mpr hk] at h
  cases h

end GoMap

/-! ## The renaming loop -/

theorem renameLoop_getElem? (customMap : GoMap GoString) (n : Nat) :
    ∀ (i : Nat) (headers : List GoString) (k : Nat), i + n = headers.length →
      (renameLoop customMap n i headers)[k]? =
        if i ≤ k then headers[k]?.map (renamed customMap) else headers[k]? := by
  induction n with
  | zero =>
    intro i headers k hlen
    simp only [renameLoop]
    split
    · rw [List.getElem?_eq_none (by omega)]
      rfl
    · rfl
  | succ n ih =>
    intro i headers k hlen
    have hi : i < headers.length := by omega
    simp only [renameLoop, List.getElem?_eq_getElem hi]
    cases hget : customMap.get? headers[i] with
    | none =>
      simp only []
      rw [ih (i + 1) headers k (by omega)]
      by_cases hk : i + 1 ≤ k
      · simp [hk, show i ≤ k by omega]
      · by_cases hik : i ≤ k
        · have hki : k = i := by omega
          subst hki
          simp [List.getElem?_eq_getElem hi, renamed, hget]
        · simp [hk, hik]
    | some customName =>
      simp only []
      rw [ih (i + 1) (headers.set i customName) k (by simp; omega)]
      by_cases hk : i + 1 ≤ k
      · have hne : i ≠ k := by omega
        simp [hk, show i ≤ k by omega, List.getElem?_set_ne hne]
      · by_cases hik : i ≤ k
        · have hki : k = i := by omega
          subst hki
          simp [List.getElem?_eq_getElem hi, renamed, hget, List.getElem?_set_self hi]
        · have hne : i ≠ k := by omega
          simp [hk, hik, List.getElem?_set_ne hne]

theorem resolveHeaders_eq_map (customMap : GoMap GoString) (headers : List GoString) :
    resolveHeaders customMap headers = headers.map (renamed customMap) := by
  apply List.ext_getElem?
  intro k
  rw [resolveHeaders, renameLoop_getElem? customMap headers.length 0 headers k (by omega)]
  simp

/-- C8: the renaming loop returns a header row of the same length; position `i` holds the
value the rename map binds to the raw header at `i` when that header is a key, and the raw
header otherwise.  The value written is not looked up again, whether or not it is a key
itself, and the loop is a total function: it has no failing outcome. -/
theorem resolveHeaders_spec (customMap : GoMap GoString) (headers : List GoString) :
    (resolveHeaders customMap headers).length = headers.length ∧
    (∀ (i : Nat) h customName, headers[i]? = some h → customMap.get? h = some customName →
      (resolveHeaders customMap headers)[i]? = some customName) ∧
    (∀ (i : Nat) h, headers[i]? = some h → customMap.get? h = none →
      (resolveHeaders customMap headers)[i]? = some h) ∧
    (∀ i : Nat, headers[i]? = none → (resolveHeaders customMap headers)[i]? = none) := by
  rw [resolveHeaders_eq_map]
  refine ⟨by simp, ?_, ?_, ?_⟩
  · intro i h customName hi hget
    simp [hi, renamed, hget]
  · intro i h hi hget
    simp [hi, renamed, hget]
  · intro i hi
    simp [hi]

/-! ## The map from column names to field indices and the presence check -/

theorem mem_keys_structFieldsFrom (L : Runtime) (fields : List StructField) :
    ∀ (i : Nat) (m : GoMap Nat) (k : GoString),
      k ∈ (structFieldsFrom L i fields m).keys ↔
        k ∈ m.keys ∨ ∃ field ∈ fields, colName L field = k := by
  induction fields with
  | nil => intro i m k; simp [structFieldsFrom]
  | cons f fs ih =>
    intro i m k
    rw [structFieldsFrom, ih, GoMap.mem_keys_set]
    simp only [List.mem_cons, exists_eq_or_imp]
    constructor
    · rintro ((h | h) | h)
      · exact Or.inr (Or.inl h.symm)
      · exact Or.inl h
      · exact Or.inr (Or.inr h)
    · rintro (h | h | h)
      · exact Or.inl (Or.inr h)
      · exact Or.inl (Or.inl h.symm)
      · exact Or.inr h

theorem mem_keys_buildStructFields (L : Runtime) (structType : List StructField)
    (k : GoString) :
    k ∈ (buildStructFields L structType).keys ↔ ∃ field ∈ structType, colName L field = k := by
  rw [buildStructFields, mem_keys_structFieldsFrom]
  simp [GoMap.keys]

theorem structFieldsFrom_get? (L : Runtime) (fields : List StructField) :
    ∀ (i : Nat) (m : GoMap Nat) (k : GoString) (j : Nat),
      (structFieldsFrom L i fields m).get? k = some j ↔
        (∃ t field, j = i + t ∧ fields[t]? = some field ∧ colName L field = k ∧
          ∀ t' field', t < t' → fields[t']? = some field' → colName L field' ≠ k) ∨
        (m.get? k = some j ∧ ∀ field ∈ fields, colName L field ≠ k) := by
  induction fields with
  | nil => intro i m k j; simp [structFieldsFrom]
  | cons f fs ih =>
    intro i m k j
    rw [structFieldsFrom, ih]
    constructor
    · rintro (⟨t, f', rfl, hf', hk, hlater⟩ | ⟨hget, hall⟩)
      · left
        refine ⟨t + 1, f', by omega, by simpa using hf', hk, ?_⟩
        intro t' f'' ht' hf''
        cases t' with
        | zero => omega
        | succ t' => exact hlater t' f'' (by omega) (by simpa using hf'')
      · by_cases hc : colName L f = k
        · left
          rw [hc, GoMap.get?_set_self] at hget
          refine ⟨0, f, by simpa using (Option.some.inj hget).symm, by simp, hc, ?_⟩
          intro t' f'' ht' hf''
          cases t' with
          | zero => omega
          | succ t' =>
            exact hall f'' (List.getElem?_mem (by simpa using hf''))
        · right
          rw [GoMap.get?_set_ne _ _ _ _ hc] at hget
          refine ⟨hget, ?_⟩
          intro f' hf'
          rcases List.mem_cons.mp hf' with rfl | hmem
          · exact hc
          · exact hall f' hmem
    · rintro (⟨t, f', rfl, hf', hk, hlater⟩ | ⟨hget, hall⟩)
      · cases t with
        | zero =>
          have hff : f = f' := by simpa using hf'
          subst hff
          right
          refine ⟨by rw [hk, GoMap.get?_set_self]; rfl, ?_⟩
          intro f'' hmem
          obtain ⟨t', ht'⟩ := List.getElem?_of_mem hmem
          exact hlater (t' + 1) f'' (by omega) (by simpa using ht')
        | succ t =>
          left
          exact ⟨t, f', by omega, by simpa using hf', hk,
            fun t' f'' h1 h2 => hlater (t' + 1) f'' (by omega) (by simpa using h2)⟩
      · right
        have hc : colName L f ≠ k := hall f (List.mem_cons_self _ _)
        exact ⟨by rw [GoMap.get?_set_ne _ _ _ _ hc]; exact hget,
          fun f' hf' => hall f' (List.mem_cons_of_mem _ hf')⟩

/-- The index `structFields` binds to a column name is that of the last field with that
column name. -/
theorem buildStructFields_get? (L : Runtime) (structType : List StructField) (k : GoString)
    (j : Nat) :
    (buildStructFields L structType).get? k = some j ↔
      ∃ field, structType[j]? = some field ∧ colName L field = k ∧
        ∀ j' field', j < j' → structType[j']? = some field' → colName L field' ≠ k := by
  rw [buildStructFields, structFieldsFrom_get?]
  constructor
  · rintro (⟨t, f, rfl, hf, hk, hlater⟩ | ⟨hget, _⟩)
    · exact ⟨f, by simpa using hf, hk, by simpa using hlater⟩
    · simp [GoMap.get?] at hget
  · rintro ⟨f, hf, hk, hlater⟩
    exact Or.inl ⟨j, f, by omega, hf, hk, hlater⟩

theorem missingColumn_eq_none (L : Runtime) (structFields : GoMap Nat)
    (headers : List GoString) :
    missingColumn L structFields headers = none ↔ ∀ k ∈ structFields.keys, k ∈ headers := by
  simp only [missingColumn, List.find?_eq_none, decide_eq_true_eq, not_not]
  constructor
  · intro h k hk
    exact h k ((L.rangeOrder_perm _).mem_iff.mpr hk)
  · intro h k hk
    exact h k ((L.rangeOrder_perm _).mem_iff.mp hk)

theorem missingColumn_eq_some (L : Runtime) (structFields : GoMap Nat)
    (headers : List GoString) (name : GoString)
    (h : missingColumn L structFields headers = some name) :
    name ∈ structFields.keys ∧ name ∉ headers := by
  simp only [missingColumn] at h
  have h1 := List.find?_some h
  have h2 := List.mem_of_find?_eq_some h
  exact ⟨(L.rangeOrder_perm _).mem_iff.mp h2, by simpa using h1⟩

/-! ## The inner loop: one record -/

theorem fillElem_cons (L : Runtime) (structType : List StructField) (headers : List GoString)
    (structFields : GoMap Nat) (i : Nat) (cell : GoString) (rest : List GoString)
    (elem : Record) :
    fillElem L structType headers structFields i (cell :: rest) elem =
      match targetField structType headers structFields i with
      | none => fillElem L structType headers structFields (i + 1) rest elem
      | some (fieldIndex, field) =>
        match setFieldValue L field cell with
        | .error err => .error err
        | .ok v => fillElem L structType headers structFields (i + 1) rest (elem.set fieldIndex v) := by
  rw [fillElem, targetField]
  cases headers[i]? with
  | none => rfl
  | some header =>
    simp only []
    cases structFields.get? header with
    | none => rfl
    | some fieldIndex =>
      simp only []
      cases structType[fieldIndex]? with
      | none => rfl
      | some field => rfl

/-- The inner loop succeeds when `setFieldValue` accepts every cell it is called on. -/
theorem fillElem_ok (L : Runtime) (structType : List StructField) (headers : List GoString)
    (structFields : GoMap Nat) (cells : List GoString) :
    ∀ (i : Nat) (elem : Record),
      (∀ t cell fieldIndex field, cells[t]? = some cell →
        targetField structType headers structFields (i + t) = some (fieldIndex, field) →
        ∃ v, setFieldValue L field cell = .ok v) →
      ∃ rec, fillElem L structType headers structFields i cells elem = .ok rec := by
  induction cells with
  | nil => intro i elem _; exact ⟨elem, rfl⟩
  | cons cell rest ih =>
    intro i elem h
    have hrest : ∀ elem' : Record,
        ∃ rec, fillElem L structType headers structFields (i + 1) rest elem' = .ok rec := by
      intro elem'
      apply ih
      intro t cell' fieldIndex field hc ht
      exact h (t + 1) cell' fieldIndex field (by simpa using hc)
        (by rw [← ht]; congr 1; omega)
    rw [fillElem_cons]
    cases htf : targetField structType headers structFields i with
    | none => exact hrest elem
    | some tf =>
      obtain ⟨fieldIndex, field⟩ := tf
      obtain ⟨v, hv⟩ := h 0 cell fieldIndex field (by simp) (by simpa using htf)
      simp only [hv]
      exact hrest _

/-- The inner loop fails when `setFieldValue` rejects one of the cells that are written to a
field. -/
theorem fillElem_error (L : Runtime) (structType : List StructField)
    (headers : List GoString) (structFields : GoMap Nat) (cells : List GoString) :
    ∀ (i : Nat) (elem : Record) (t : Nat) (cell : GoString) (fieldIndex : Nat)
      (field : StructField) (err : Error), cells[t]? = some cell →
      targetField structType headers structFields (i + t) = some (fieldIndex, field) →
      setFieldValue L field cell = .error err →
      ∃ err', fillElem L structType headers structFields i cells elem = .error err' := by
  induction cells with
  | nil => intro i elem t cell fieldIndex field err hc; simp at hc
  | cons c rest ih =>
    intro i elem t cell fieldIndex field err hc ht hbad
    rw [fillElem_cons]
    cases t with
    | zero =>
      have hcc : c = cell := by simpa using hc
      subst hcc
      rw [Nat.add_zero] at ht
      simp only [ht, hbad]
      exact ⟨err, rfl⟩
    | succ t =>
      have hrest : ∀ elem' : Record,
          ∃ err', fillElem L structType headers structFields (i + 1) rest elem' = .error err' :=
        fun elem' => ih (i + 1) elem' t cell fieldIndex field err (by simpa using hc)
          (by rw [← ht]; congr 1; omega) hbad
      cases targetField structType headers structFields i with
      | none => exact hrest elem
      | some tf =>
        obtain ⟨fieldIndex', field'⟩ := tf
        simp only []
        cases setFieldValue L field' c with
        | error e => exact ⟨e, rfl⟩
        | ok v => exact hrest _

/-- What a successful run of the inner loop leaves in the struct value: the number of fields
is unchanged, a field no visited cell is written to keeps its value, and a field holds what
`setFieldValue` made of the last visited cell written to it. -/
theorem fillElem_spec (L : Runtime) (structType : List StructField) (headers : List GoString)
    (structFields : GoMap Nat) (cells : List GoString) :
    ∀ (i : Nat) (elem rec : Record),
      fillElem L structType headers structFields i cells elem = .ok rec →
      rec.length = elem.length ∧
      (∀ j : Nat, (∀ t cell fieldIndex field, cells[t]? = some cell →
          targetField structType headers structFields (i + t) = some (fieldIndex, field) →
          fieldIndex ≠ j) → rec[j]? = elem[j]?) ∧
      (∀ (t : Nat) (cell : GoString) (j : Nat) (field : StructField),
        cells[t]? = some cell →
        targetField structType headers structFields (i + t) = some (j, field) →
        j < elem.length →
        (∀ t' cell' fieldIndex field', t < t' → cells[t']? = some cell' →
          targetField structType headers structFields (i + t') = some (fieldIndex, field') →
          fieldIndex ≠ j) →
        ∃ v, setFieldValue L field cell = .ok v ∧ rec[j]? = some v) := by
  induction cells with
  | nil =>
    intro i elem rec h
    simp only [fillElem, Except.ok.injEq] at h
    subst h
    refine ⟨rfl, fun _ _ => rfl, ?_⟩
    intro t cell j field hc
    simp at hc
  | cons c rest ih =>
    intro i elem rec h
    rw [fillElem_cons] at h
    -- the state `elem'` the loop continues with after the first cell
    have key : ∃ elem' : Record,
        fillElem L structType headers structFields (i + 1) rest elem' = .ok rec ∧
        elem'.length = elem.length ∧
        (∀ j : Nat, (∀ fieldIndex field,
            targetField structType headers structFields i = some (fieldIndex, field) →
            fieldIndex ≠ j) → elem'[j]? = elem[j]?) ∧
        (∀ j field, targetField structType headers structFields i = some (j, field) →
          j < elem.length → ∃ v, setFieldValue L field c = .ok v ∧ elem'[j]? = some v) := by
      cases htf : targetField structType headers structFields i with
      | none =>
        rw [htf] at h
        exact ⟨elem, h, rfl, fun _ _ => rfl, fun j field hj => by cases hj⟩
      | some tf =>
        obtain ⟨fieldIndex, field⟩ := tf
        rw [htf] at h
        simp only [] at h
        cases hv : setFieldValue L field c with
        | error e => rw [hv] at h; cases h
        | ok v =>
          rw [hv] at h
          refine ⟨elem.set fieldIndex v, h, by simp, ?_, ?_⟩
          · intro j hj
            exact List.getElem?_set_ne (hj fieldIndex field rfl)
          · intro j field' hj hlt
            simp only [Option.some.injEq, Prod.mk.injEq] at hj
            obtain ⟨rfl, rfl⟩ := hj
            exact ⟨v, hv, List.getElem?_set_self hlt⟩
    obtain ⟨elem', hrec, hlen, hkeep, hset⟩ := key
    obtain ⟨ih1, ih2, ih3⟩ := ih (i + 1) elem' rec hrec
    refine ⟨by rw [ih1, hlen], ?_, ?_⟩
    · intro j hj
      rw [ih2 j, hkeep j]
      · intro fieldIndex field htf
        exact hj 0 c fieldIndex field (by simp) (by simpa using htf)
      · intro t cell fieldIndex field hc ht
        exact hj (t + 1) cell fieldIndex field (by simpa using hc)
          (by rw [← ht]; congr 1; omega)
    · intro t cell j field hc ht hlt hlast
      cases t with
      | zero =>
        have hcc : c = cell := by simpa using hc
        subst hcc
        rw [Nat.add_zero] at ht
        obtain ⟨v, hv, hev⟩ := hset j field ht hlt
        refine ⟨v, hv, ?_⟩
        rw [ih2 j, hev]
        intro t' cell' fieldIndex field' hc' ht'
        exact hlast (t' + 1) cell' fieldIndex field' (by omega) (by simpa using hc')
          (by rw [← ht']; congr 1; omega)
      | succ t =>
        apply ih3 t cell j field (by simpa using hc) (by rw [← ht]; congr 1; omega)
          (by rw [hlen]; exact hlt)
        intro t' cell' fieldIndex field' htt hc' ht'
        exact hlast (t' + 1) cell' fieldIndex field' (by omega) (by simpa using hc')
          (by rw [← ht']; congr 1; omega)

/-! ## The outer loop: all data rows -/

/-- The outer loop appends one struct value per record, in order, up to the first record the
inner loop fails on; it returns that failure, or no error when there is none. -/
theorem appendRows_spec (L : Runtime) (structType : List StructField)
    (headers : List GoString) (structFields : GoMap Nat) (rows : List (List GoString)) :
    ∀ (out out' : List Record) (err : Option Error),
      appendRows L structType headers structFields rows out = (out', err) →
      ∃ recs : List Record, out' = out ++ recs ∧ recs.length ≤ rows.length ∧
        (∀ (k : Nat) row, k < recs.length → rows[k]? = some row →
          ∃ rec, recs[k]? = some rec ∧
            fillElem L structType headers structFields 0 row (newElem structType) = .ok rec) ∧
        (err = none → recs.length = rows.length) ∧
        (∀ e, err = some e → ∃ row, rows[recs.length]? = some row ∧
          fillElem L structType headers structFields 0 row (newElem structType) = .error e) := by
  induction rows with
  | nil =>
    intro out out' err h
    simp only [appendRows, Prod.mk.injEq] at h
    obtain ⟨rfl, rfl⟩ := h
    exact ⟨[], by simp, by simp, by simp, by simp, by simp⟩
  | cons row rest ih =>
    intro out out' err h
    rw [appendRows] at h
    cases hrow : fillElem L structType headers structFields 0 row (newElem structType) with
    | error e =>
      rw [hrow] at h
      simp only [Prod.mk.injEq] at h
      obtain ⟨rfl, rfl⟩ := h
      refine ⟨[], by simp, by simp, by simp, by simp, ?_⟩
      intro e' he'
      simp only [Option.some.injEq] at he'
      subst he'
      exact ⟨row, by simp, hrow⟩
    | ok elem =>
      rw [hrow] at h
      simp only [] at h
      obtain ⟨recs, hout, hlen, hrecs, hnone, hsome⟩ := ih _ _ _ h
      refine ⟨elem :: recs, by simp [hout], by simp [hlen], ?_, ?_, ?_⟩
      · intro k r hk hr
        cases k with
        | zero =>
          have hrr : row = r := by simpa using hr
          subst hrr
          exact ⟨elem, by simp, hrow⟩
        | succ k =>
          simpa using hrecs k r (by simpa using hk) (by simpa using hr)
      · intro he
        simp [hnone he]
      · intro e he
        simpa using hsome e he

theorem LoadCSV_of_present (L : Runtime) (c : CSV2Struct) (records : List (List GoString))
    (structType : List StructField) (out : List Record) (hrows : 2 ≤ records.length)
    (hpresent : ∀ field ∈ structType, colName L field ∈ headerRow c records) :
    LoadCSV L c records structType out =
      appendRows L structType (headerRow c records) (buildStructFields L structType)
        (records.drop 1) out := by
  have hnone : missingColumn L (buildStructFields L structType) (headerRow c records) = none := by
    rw [missingColumn_eq_none]
    intro k hk
    obtain ⟨field, hf, rfl⟩ := (mem_keys_buildStructFields L structType k).mp hk
    exact hpresent field hf
  rw [headerRow] at hnone
  simp only [LoadCSV, show ¬ records.length < 2 by omega, if_false, hnone, headerRow]

/-- A load that returns no error passed both checks and ran the outer loop to its end. -/
theorem LoadCSV_success (L : Runtime) (c : CSV2Struct) (records : List (List GoString))
    (structType : List StructField) (out out' : List Record)
    (h : LoadCSV L c records structType out = (out', none)) :
    2 ≤ records.length ∧
    (∀ field ∈ structType, colName L field ∈ headerRow c records) ∧
    appendRows L structType (headerRow c records) (buildStructFields L structType)
      (records.drop 1) out = (out', none) := by
  by_cases hlen : records.length < 2
  · simp [LoadCSV, hlen] at h
  · have hpresent : ∀ field ∈ structType, colName L field ∈ headerRow c records := by
      intro field hf
      by_contra hmiss
      cases hm : missingColumn L (buildStructFields L structType) (headerRow c records) with
      | none =>
        rw [missingColumn_eq_none] at hm
        exact hmiss (hm _ ((mem_keys_buildStructFields L structType _).mpr ⟨field, hf, rfl⟩))
      | some name =>
        rw [headerRow] at hm
        simp only [LoadCSV, hlen, if_false, hm] at h
        simp at h
    refine ⟨by omega, hpresent, ?_⟩
    rw [← LoadCSV_of_present L c records structType out (by omega) hpresent]
    exact h

theorem cellCoerces_iff (L : Runtime) (c : CSV2Struct) (records : List (List GoString))
    (structType : List StructField) (record : List GoString) (i : Nat)
    (h : cellCoerces L c records structType record i = true) (cell : GoString)
    (fieldIndex : Nat) (field : StructField) (hc : record[i]? = some cell)
    (ht : targetField structType (headerRow c records) (buildStructFields L structType) i =
      some (fieldIndex, field)) :
    ∃ v, setFieldValue L field cell = .ok v := by
  simp only [cellCoerces, ht, hc] at h
  cases hv : setFieldValue L field cell with
  | error e => rw [hv] at h; simp [Except.toBool] at h
  | ok v => exact ⟨v, rfl⟩

theorem targetField_eq_some (L : Runtime) (structType : List StructField)
    (headers : List GoString) (i j : Nat) (field : StructField) :
    targetField structType headers (buildStructFields L structType) i = some (j, field) ↔
      structType[j]? = some field ∧ headers[i]? = some (colName L field) ∧
        ∀ j' field', j < j' → structType[j']? = some field' →
          colName L field' ≠ colName L field := by
  unfold targetField
  cases hh : headers[i]? with
  | none => simp
  | some header =>
    simp only []
    cases hg : (buildStructFields L structType).get? header with
    | none =>
      constructor
      · intro h
        cases h
      · rintro ⟨hf, hc, hlater⟩
        have hhc : header = colName L field := by simpa using hc
        subst hhc
        rw [(buildStructFields_get? L structType _ j).mpr ⟨field, hf, rfl, hlater⟩] at hg
        cases hg
    | some fieldIndex =>
      simp only []
      obtain ⟨f, hf, hk, hlater⟩ := (buildStructFields_get? L structType header fieldIndex).mp hg
      rw [hf]
      constructor
      · intro h
        simp only [Option.some.injEq, Prod.mk.injEq] at h
        obtain ⟨rfl, rfl⟩ := h
        exact ⟨hf, by rw [hk], by rw [hk]; exact hlater⟩
      · rintro ⟨hf', hc, hlater'⟩
        have hhc : header = colName L field := by simpa using hc
        subst hhc
        rw [(buildStructFields_get? L structType _ j).mpr ⟨field, hf', rfl, hlater'⟩] at hg
        have hji : j = fieldIndex := by simpa using hg
        subst hji
        rw [hf] at hf'
        simp only [Option.some.injEq] at hf'
        subst hf'
        rfl

/-- What the inner loop makes of one record: a field whose column name heads no column
within the record keeps its zero value, and the field a column is written to holds what
`setFieldValue` made of the cell, unless a later column within the record has the same
header. -/
theorem rowElem_spec (L : Runtime) (c : CSV2Struct) (records : List (List GoString))
    (structType : List StructField) (record : List GoString) (rec : Record)
    (h : rowElem L c records structType record = .ok rec) :
    rec.length = structType.length ∧
    (∀ (j : Nat) field, structType[j]? = some field →
      (∀ t : Nat, (headerRow c records)[t]? = some (colName L field) → record.length ≤ t) →
      rec[j]? = some (zeroValue field.Typ)) ∧
    (∀ (t : Nat) cell (j : Nat) field, record[t]? = some cell →
      targetField structType (headerRow c records) (buildStructFields L structType) t =
        some (j, field) →
      (∀ t' : Nat, t < t' → t' < record.length →
        (headerRow c records)[t']? ≠ (headerRow c records)[t]?) →
      ∃ v, setFieldValue L field cell = .ok v ∧ rec[j]? = some v) := by
  obtain ⟨h1, h2, h3⟩ := fillElem_spec L structType (headerRow c records)
    (buildStructFields L structType) record 0 (newElem structType) rec h
  refine ⟨by rw [h1]; simp [newElem], ?_, ?_⟩
  · intro j field hj hcol
    rw [h2 j]
    · simp [newElem, hj]
    · intro t cell fieldIndex field' hc ht hidx
      subst hidx
      rw [Nat.zero_add] at ht
      obtain ⟨hf, hh, _⟩ := (targetField_eq_some L structType _ t fieldIndex field').mp ht
      rw [hj] at hf
      simp only [Option.some.injEq] at hf
      subst hf
      have hlt : t < record.length := by
        by_contra hge
        rw [List.getElem?_eq_none (by omega)] at hc
        cases hc
      have := hcol t hh
      omega
  · intro t cell j field hc ht hlast
    rw [← Nat.zero_add t] at ht
    have hjlt : j < (newElem structType).length := by
      rw [Nat.zero_add] at ht
      obtain ⟨hf, _, _⟩ := (targetField_eq_some L structType _ t j field).mp ht
      have := (List.getElem?_eq_some.mp hf).1
      simpa [newElem] using this
    apply h3 t cell j field hc ht hjlt
    intro t' cell' fieldIndex field' htt hc' ht' hidx
    subst hidx
    rw [Nat.zero_add] at ht ht'
    obtain ⟨hf, hh, _⟩ := (targetField_eq_some L structType _ t fieldIndex field).mp ht
    obtain ⟨hf', hh', _⟩ := (targetField_eq_some L structType _ t' fieldIndex field').mp ht'
    rw [hf] at hf'
    simp only [Option.some.injEq] at hf'
    subst hf'
    have hlt : t' < record.length := by
      by_contra hge
      rw [List.getElem?_eq_none (by omega)] at hc'
      cases hc'
    exact hlast t' htt hlt (by rw [hh, hh'])

/-- The inner loop leaves the struct value as it is when none of the cells is written to a
field. -/
theorem fillElem_skip (L : Runtime) (structType : List StructField) (headers : List GoString)
    (structFields : GoMap Nat) (cells : List GoString) :
    ∀ (i : Nat) (elem : Record),
      (∀ t : Nat, t < cells.length → targetField structType headers structFields (i + t) = none) →
      fillElem L structType headers structFields i cells elem = .ok elem := by
  induction cells with
  | nil => intro i elem _; rfl
  | cons cell rest ih =>
    intro i elem h
    rw [fillElem_cons, show targetField structType headers structFields i = none from by
      simpa using h 0 (by simp)]
    apply ih
    intro t ht
    rw [← h (t + 1) (by simpa using ht)]
    congr 1
    omega

/-- The inner loop gives the same result on two records that hold the same cell in every
column that is written to a field. -/
theorem fillElem_agree (L : Runtime) (structType : List StructField) (headers : List GoString)
    (structFields : GoMap Nat) (cells : List GoString) :
    ∀ (cells' : List GoString) (i : Nat) (elem : Record),
      (∀ t : Nat, targetField structType headers structFields (i + t) ≠ none →
        cells[t]? = cells'[t]?) →
      fillElem L structType headers structFields i cells elem =
        fillElem L structType headers structFields i cells' elem := by
  induction cells with
  | nil =>
    intro cells' i elem h
    rw [fillElem_skip L structType headers structFields cells' i elem]
    · rfl
    · intro t ht
      by_contra hne
      have := h t hne
      rw [List.getElem?_eq_getElem ht] at this
      simp at this
  | cons cell rest ih =>
    intro cells' i elem h
    cases cells' with
    | nil =>
      rw [fillElem_skip L structType headers structFields (cell :: rest) i elem]
      · rfl
      · intro t ht
        by_contra hne
        have := h t hne
        rw [List.getElem?_eq_getElem ht] at this
        simp at this
    | cons cell' rest' =>
      have hrest : ∀ elem' : Record,
          fillElem L structType headers structFields (i + 1) rest elem' =
            fillElem L structType headers structFields (i + 1) rest' elem' := by
        intro elem'
        apply ih
        intro t ht
        have := h (t + 1) (by rw [show i + (t + 1) = i + 1 + t by omega]; exact ht)
        simpa using this
      rw [fillElem_cons, fillElem_cons]
      cases htf : targetField structType headers structFields i with
      | none => exact hrest elem
      | some tf =>
        obtain ⟨fieldIndex, field⟩ := tf
        have hcc : cell = cell' := by
          have := h 0 (by rw [Nat.add_zero, htf]; simp)
          simpa using this
        subst hcc
        simp only []
        cases setFieldValue L field cell with
        | error e => rfl
        | ok v => exact hrest _

/-- The outer loop depends on the records only through the results of the inner loop. -/
theorem appendRows_congr (L : Runtime) (structType : List StructField)
    (headers headers' : List GoString) (structFields : GoMap Nat)
    (rows : List (List GoString)) :
    ∀ (rows' : List (List GoString)) (out : List Record), rows.length = rows'.length →
      (∀ (k : Nat) row row', rows[k]? = some row → rows'[k]? = some row' →
        fillElem L structType headers structFields 0 row (newElem structType) =
          fillElem L structType headers' structFields 0 row' (newElem structType)) →
      appendRows L structType headers structFields rows out =
        appendRows L structType headers' structFields rows' out := by
  induction rows with
  | nil =>
    intro rows' out hlen _
    cases rows' with
    | nil => rfl
    | cons _ _ => simp at hlen
  | cons row rest ih =>
    intro rows' out hlen h
    cases rows' with
    | nil => simp at hlen
    | cons row' rest' =>
      rw [appendRows, appendRows, h 0 row row' (by simp) (by simp)]
      cases fillElem L structType headers' structFields 0 row' (newElem structType) with
      | error e => rfl
      | ok elem =>
        simp only []
        apply ih rest' _ (by simpa using hlen)
        intro k r r' hr hr'
        exact h (k + 1) r r' (by simpa using hr) (by simpa using hr')

/-- The outer loop returns no error when the inner loop succeeds on every record. -/
theorem appendRows_ok (L : Runtime) (structType : List StructField)
    (headers : List GoString) (structFields : GoMap Nat) (rows : List (List GoString))
    (out : List Record)
    (hrow : ∀ row ∈ rows, ∃ rec,
      fillElem L structType headers structFields 0 row (newElem structType) = .ok rec) :
    ∃ recs : List Record,
      appendRows L structType headers structFields rows out = (out ++ recs, none) ∧
      recs.length = rows.length ∧
      ∀ (k : Nat) row, rows[k]? = some row → ∃ rec, recs[k]? = some rec ∧
        fillElem L structType headers structFields 0 row (newElem structType) = .ok rec := by
  cases hres : appendRows L structType headers structFields rows out with
  | mk out' err =>
    obtain ⟨recs, hout, hlen, hrecs, hnone, hsome⟩ := appendRows_spec _ _ _ _ _ _ _ _ hres
    cases err with
    | some e =>
      obtain ⟨row, hr, hfail⟩ := hsome e rfl
      obtain ⟨rec, hok⟩ := hrow row (List.getElem?_mem hr)
      rw [hok] at hfail
      cases hfail
    | none =>
      have hl := hnone rfl
      refine ⟨recs, by rw [hout], hl, ?_⟩
      intro k record hk
      have hklt : k < recs.length := by
        rw [hl]
        by_contra hge
        rw [List.getElem?_eq_none (by omega)] at hk
        cases hk
      exact hrecs k record hklt hk

/-- The inner loop succeeds on a record all of whose cells are dropped or accepted. -/
theorem rowElem_ok (L : Runtime) (c : CSV2Struct) (records : List (List GoString))
    (structType : List StructField) (record : List GoString)
    (hcoerce : ∀ i < record.length, cellCoerces L c records structType record i = true) :
    ∃ rec, rowElem L c records structType record = .ok rec := by
  apply fillElem_ok
  intro t cell fieldIndex field hc ht
  rw [Nat.zero_add] at ht
  have hlt : t < record.length := by
    by_contra hge
    rw [List.getElem?_eq_none (by omega)] at hc
    cases hc
  exact cellCoerces_iff L c records structType record t (hcoerce t hlt) cell fieldIndex field
    hc ht

theorem fillZip_nil_headers (L : Runtime) (structType : List StructField)
    (structFields : GoMap Nat) (cells : List GoString) (elem : Record) :
    fillZip L structType structFields [] cells elem = .ok elem := by
  cases cells <;> rfl

theorem fillElem_eq_fillZip (L : Runtime) (structType : List StructField)
    (headers : List GoString) (structFields : GoMap Nat) (cells : List GoString) :
    ∀ (i : Nat) (elem : Record),
      fillElem L structType headers structFields i cells elem =
        fillZip L structType structFields (headers.drop i) cells elem := by
  induction cells with
  | nil => intro i elem; simp [fillElem, fillZip]
  | cons cell rest ih =>
    intro i elem
    rw [fillElem]
    by_cases hi : i < headers.length
    · rw [List.getElem?_eq_getElem hi, List.drop_eq_getElem_cons hi, fillZip]
      simp only [ih]
    · rw [List.getElem?_eq_none (by omega), List.drop_eq_nil_of_le (by omega),
        fillZip_nil_headers]
      simp only [ih]
      rw [List.drop_eq_nil_of_le (by omega), fillZip_nil_headers]

/-- An added column whose header is no key of `structFields` does not change what the inner
loop does. -/
theorem fillZip_insertColumn (L : Runtime) (structType : List StructField)
    (structFields : GoMap Nat) (a x : GoString) (ha : structFields.get? a = none) (p : Nat) :
    ∀ (headers cells : List GoString) (elem : Record),
      fillZip L structType structFields (insertColumn p a headers) (insertColumn p x cells) elem =
        fillZip L structType structFields headers cells elem := by
  induction p with
  | zero =>
    intro headers cells elem
    simp only [insertColumn]
    rw [fillZip, ha]
  | succ p ih =>
    intro headers cells elem
    cases headers with
    | nil => simp only [insertColumn, fillZip_nil_headers]
    | cons h hs =>
      cases cells with
      | nil => simp only [insertColumn, fillZip]
      | cons cell rest =>
        simp only [insertColumn, fillZip, ih]

theorem mem_insertColumn (p : Nat) (a y : GoString) :
    ∀ row : List GoString, y ∈ row → y ∈ insertColumn p a row := by
  induction p with
  | zero => intro row h; simp [insertColumn, h]
  | succ p ih =>
    intro row h
    cases row with
    | nil => simp at h
    | cons cell rest =>
      simp only [insertColumn, List.mem_cons] at h ⊢
      rcases h with h | h
      · exact Or.inl h
      · exact Or.inr (ih rest h)

theorem map_insertColumn (f : GoString → GoString) (p : Nat) (a : GoString) :
    ∀ row : List GoString, (insertColumn p a row).map f = insertColumn p (f a) (row.map f) := by
  induction p with
  | zero => intro row; simp [insertColumn]
  | succ p ih =>
    intro row
    cases row with
    | nil => simp [insertColumn]
    | cons cell rest => simp [insertColumn, ih]

/-! ## The column-type report -/

theorem GetColumnType_eq_foldl (L : Runtime) (c : CSV2Struct) (structType : List StructField) :
    GetColumnType L c structType =
      structType.foldl (fun (types : GoMap GoString) field =>
        types.set (reportName L c field) field.Typ.Name) [] := rfl

theorem mem_keys_foldl_set (L : Runtime) (c : CSV2Struct) (fields : List StructField) :
    ∀ (m : GoMap GoString) (k : GoString),
      k ∈ (fields.foldl (fun (types : GoMap GoString) field =>
          types.set (reportName L c field) field.Typ.Name) m).keys ↔
        k ∈ m.keys ∨ ∃ field ∈ fields, reportName L c field = k := by
  induction fields with
  | nil => intro m k; simp
  | cons f fs ih =>
    intro m k
    rw [List.foldl_cons, ih, GoMap.mem_keys_set]
    simp only [List.mem_cons, exists_eq_or_imp]
    constructor
    · rintro ((h | h) | h)
      · exact Or.inr (Or.inl h.symm)
      · exact Or.inl h
      · exact Or.inr (Or.inr h)
    · rintro (h | h | h)
      · exact Or.inl (Or.inr h)
      · exact Or.inl (Or.inl h.symm)
      · exact Or.inr h

theorem foldl_set_get? (L : Runtime) (c : CSV2Struct) (fields : List StructField) :
    ∀ (m : GoMap GoString) (k v : GoString),
      (fields.foldl (fun (types : GoMap GoString) field =>
          types.set (reportName L c field) field.Typ.Name) m).get? k = some v ↔
        (∃ (t : Nat) (field : StructField), fields[t]? = some field ∧
          reportName L c field = k ∧ field.Typ.Name = v ∧
          ∀ (t' : Nat) field', t < t' → fields[t']? = some field' →
            reportName L c field' ≠ k) ∨
        (m.get? k = some v ∧ ∀ field ∈ fields, reportName L c field ≠ k) := by
  induction fields with
  | nil => intro m k v; simp
  | cons f fs ih =>
    intro m k v
    rw [List.foldl_cons, ih]
    constructor
    · rintro (⟨t, f', hf', hk, hv, hlater⟩ | ⟨hget, hall⟩)
      · left
        refine ⟨t + 1, f', by simpa using hf', hk, hv, ?_⟩
        intro t' f'' ht' hf''
        cases t' with
        | zero => omega
        | succ t' => exact hlater t' f'' (by omega) (by simpa using hf'')
      · by_cases hc : reportName L c f = k
        · left
          rw [hc, GoMap.get?_set_self] at hget
          refine ⟨0, f, by simp, hc, by simpa using hget, ?_⟩
          intro t' f'' ht' hf''
          cases t' with
          | zero => omega
          | succ t' => exact hall f'' (List.getElem?_mem (by simpa using hf''))
        · right
          rw [GoMap.get?_set_ne _ _ _ _ hc] at hget
          refine ⟨hget, ?_⟩
          intro f' hf'
          rcases List.mem_cons.mp hf' with rfl | hmem
          · exact hc
          · exact hall f' hmem
    · rintro (⟨t, f', hf', hk, hv, hlater⟩ | ⟨hget, hall⟩)
      · cases t with
        | zero =>
          have hff : f = f' := by simpa using hf'
          subst hff
          right
          refine ⟨by rw [hk, GoMap.get?_set_self, hv], ?_⟩
          intro f'' hmem
          obtain ⟨t', ht'⟩ := List.getElem?_of_mem hmem
          exact hlater (t' + 1) f'' (by omega) (by simpa using ht')
        | succ t =>
          left
          exact ⟨t, f', by simpa using hf', hk, hv,
            fun t' f'' h1 h2 => hlater (t' + 1) f'' (by omega) (by simpa using h2)⟩
      · right
        have hc : reportName L c f ≠ k := hall f (List.mem_cons_self _ _)
        exact ⟨by rw [GoMap.get?_set_ne _ _ _ _ hc]; exact hget,
          fun f' hf' => hall f' (List.mem_cons_of_mem _ hf')⟩

/-! ## Struct synthesis -/

set_option maxRecDepth 100000 in
theorem ToUpper1_head : ∀ c : UInt8, c ≠ 95 →
    ¬ (97 ≤ ((ToUpper1 c).headD 0).toNat ∧ ((ToUpper1 c).headD 0).toNat ≤ 122) ∧
      (ToUpper1 c).headD 0 ≠ 95 ∧ ToUpper1 c ≠ [] := by
  intro c
  cases c with
  | mk v =>
    revert v
    decide

theorem capitalize_head (h : GoString) (hne : h ≠ []) (hunder : h.head? ≠ some 95) :
    capitalize h ≠ [] ∧
    ¬ (97 ≤ ((capitalize h).headD 0).toNat ∧ ((capitalize h).headD 0).toNat ≤ 122) ∧
      (capitalize h).headD 0 ≠ 95 := by
  cases h with
  | nil => exact absurd rfl hne
  | cons c rest =>
    have hc : c ≠ 95 := by simpa using hunder
    obtain ⟨h1, h2, h3⟩ := ToUpper1_head c hc
    have hhead : (capitalize (c :: rest)).headD 0 = (ToUpper1 c).headD 0 := by
      simp only [capitalize]
      cases hT : ToUpper1 c with
      | nil => exact absurd hT h3
      | cons b bs => rfl
    rw [hhead]
    refine ⟨?_, h1, h2⟩
    simp only [capitalize]
    intro hnil
    exact h3 (List.append_eq_nil.mp hnil).1

/-- The checks of `reflect.StructOf` pass on exported fields with distinct, valid names that
start neither with a lower-case ASCII letter nor with an underscore. -/
theorem structOfLoop_none (L : Runtime) (fields : List StructField) :
    ∀ (i : Nat) (fset : List GoString),
      (∀ field ∈ fields, field.Name ≠ [] ∧ L.isValidFieldName field.Name = true ∧
        field.PkgPath = [] ∧
        ¬ (97 ≤ (field.Name.headD 0).toNat ∧ (field.Name.headD 0).toNat ≤ 122) ∧
        field.Name.headD 0 ≠ 95) →
      (fields.map (fun field => field.Name)).Nodup →
      (∀ field ∈ fields, field.Name ∉ fset) →
      structOfLoop L i [] fset fields = none := by
  induction fields with
  | nil => intro i fset _ _ _; rfl
  | cons f fs ih =>
    intro i fset hvalid hnodup hfresh
    obtain ⟨h1, h2, h3, h4, h5⟩ := hvalid f (List.mem_cons_self _ _)
    have hnot : f.Name ∉ fset := hfresh f (List.mem_cons_self _ _)
    rw [List.map_cons, List.nodup_cons] at hnodup
    rw [structOfLoop]
    simp only [h1, h2, h3, h4, h5, hnot, if_false, false_and, and_false, or_self,
      Bool.not_true, ne_eq, not_true_eq_false, Bool.false_eq_true]
    apply ih
    · exact fun field hf => hvalid field (List.mem_cons_of_mem _ hf)
    · exact hnodup.2
    · intro field hf hmem
      rcases List.mem_cons.mp hmem with heq | hmem
      · exact hnodup.1 (List.mem_map.mpr ⟨field, hf, heq⟩)
      · exact hfresh field (List.mem_cons_of_mem _ hf) hmem

/-! ## The properties of the specification -/

/-- C1: on at least two rows, when every field's column name occurs in the renamed header row
and `setFieldValue` accepts every cell that is written to a field, `LoadCSV` returns no error
and appends exactly one struct value per data row, the `k`-th of them being the one the inner
loop builds from the `k`-th data row. -/
theorem LoadCSV_one_record_per_row (L : Runtime) (c : CSV2Struct)
    (records : List (List GoString)) (structType : List StructField) (out : List Record)
    (hrows : 2 ≤ records.length)
    (hpresent : ∀ field ∈ structType, colName L field ∈ headerRow c records)
    (hcoerce : ∀ record ∈ records.drop 1, ∀ i < record.length,
      cellCoerces L c records structType record i = true) :
    ∃ recs : List Record,
      LoadCSV L c records structType out = (out ++ recs, none) ∧
      recs.length = records.length - 1 ∧
      ∀ (k : Nat) record, (records.drop 1)[k]? = some record →
        ∃ rec, recs[k]? = some rec ∧ rowElem L c records structType record = .ok rec := by
  rw [LoadCSV_of_present L c records structType out hrows hpresent]
  obtain ⟨recs, happ, hlen, hrecs⟩ := appendRows_ok L structType (headerRow c records)
    (buildStructFields L structType) (records.drop 1) out
    (fun record hmem => rowElem_ok L c records structType record (hcoerce record hmem))
  exact ⟨recs, happ, by rw [hlen]; simp, hrecs⟩

/-- C1, on the rows of `example/example.csv` and the struct `Person`. -/
theorem LoadCSV_one_record_per_row_witness :
    2 ≤ exampleRecords.length ∧
    (∀ field ∈ Person, colName exampleRuntime field ∈ headerRow NewCSV2Struct exampleRecords) ∧
    (∀ record ∈ exampleRecords.drop 1, ∀ i < record.length,
      cellCoerces exampleRuntime NewCSV2Struct exampleRecords Person record i = true) ∧
    ∃ recs : List Record,
      LoadCSV exampleRuntime NewCSV2Struct exampleRecords Person [] = ([] ++ recs, none) ∧
      recs.length = exampleRecords.length - 1 ∧
      ∀ (k : Nat) record, (exampleRecords.drop 1)[k]? = some record →
        ∃ rec, recs[k]? = some rec ∧
          rowElem exampleRuntime NewCSV2Struct exampleRecords Person record = .ok rec :=
  ⟨by decide, by decide, by decide,
    LoadCSV_one_record_per_row exampleRuntime NewCSV2Struct exampleRecords Person []
      (by decide) (by decide) (by decide)⟩

/-- C3: on at least two rows, when some field's column name does not occur in the renamed
header row, `LoadCSV` returns the error "missing required column" naming a column name of
the struct that is absent from the renamed header row, and the slice behind `out` is left as
it was: no data row is processed, whatever the cells of the data rows are. -/
theorem LoadCSV_missing_column (L : Runtime) (c : CSV2Struct)
    (records : List (List GoString)) (structType : List StructField) (out : List Record)
    (hrows : 2 ≤ records.length)
    (hmissing : ∃ field ∈ structType, colName L field ∉ headerRow c records) :
    ∃ name, LoadCSV L c records structType out = (out, some (.MissingColumn name)) ∧
      name ∉ headerRow c records ∧ ∃ field ∈ structType, colName L field = name := by
  cases hm : missingColumn L (buildStructFields L structType) (headerRow c records) with
  | none =>
    rw [missingColumn_eq_none] at hm
    obtain ⟨field, hf, habs⟩ := hmissing
    exact absurd (hm _ ((mem_keys_buildStructFields L structType _).mpr ⟨field, hf, rfl⟩)) habs
  | some name =>
    obtain ⟨hkey, habs⟩ := missingColumn_eq_some L _ _ name hm
    refine ⟨name, ?_, habs, (mem_keys_buildStructFields L structType name).mp hkey⟩
    rw [headerRow] at hm
    simp only [LoadCSV, show ¬ records.length < 2 by omega, if_false, hm]

/-- C3, on a file without the column `email` whose data row holds a cell that is no integer. -/
theorem LoadCSV_missing_column_witness :
    2 ≤ [[str "name", str "age"], [str "John Doe", str "thirty"]].length ∧
    (∃ field ∈ Person, colName exampleRuntime field ∉
      headerRow NewCSV2Struct [[str "name", str "age"], [str "John Doe", str "thirty"]]) ∧
    ∃ name, LoadCSV exampleRuntime NewCSV2Struct
        [[str "name", str "age"], [str "John Doe", str "thirty"]] Person [] =
          ([], some (.MissingColumn name)) ∧
      name ∉ headerRow NewCSV2Struct [[str "name", str "age"], [str "John Doe", str "thirty"]] ∧
      ∃ field ∈ Person, colName exampleRuntime field = name :=
  ⟨by decide, by decide,
    LoadCSV_missing_column exampleRuntime NewCSV2Struct
      [[str "name", str "age"], [str "John Doe", str "thirty"]] Person [] (by decide)
      (by decide)⟩

/-- C6: on fewer than two rows `LoadCSV` returns the error "CSV file must have at least one
data row" and leaves the slice behind `out` as it was, for every struct type and every custom
map; the columns are not looked at, so no missing column is reported instead. -/
theorem LoadCSV_empty_data_set (L : Runtime) (c : CSV2Struct)
    (records : List (List GoString)) (structType : List StructField) (out : List Record)
    (hrows : records.length < 2) :
    LoadCSV L c records structType out = (out, some .EmptyDataSet) := by
  simp [LoadCSV, hrows]

/-- C6, on the header-only input `[[name, age]]`, which lacks the column `email` of
`Person`. -/
theorem LoadCSV_empty_data_set_witness :
    [[str "name", str "age"]].length < 2 ∧
    (∃ field ∈ Person, colName exampleRuntime field ∉
      headerRow NewCSV2Struct [[str "name", str "age"]]) ∧
    LoadCSV exampleRuntime NewCSV2Struct [[str "name", str "age"]] Person [] =
      ([], some .EmptyDataSet) :=
  ⟨by decide, by decide,
    LoadCSV_empty_data_set exampleRuntime NewCSV2Struct [[str "name", str "age"]] Person []
      (by decide)⟩

theorem setFieldValue_malformed (L : Runtime) (field : StructField) (cell : GoString)
    (hbad : (field.Typ.Kind = .Int ∧ Atoi cell = none) ∨
      (field.Typ.Kind = .Float64 ∧ L.ParseFloat cell = none)) :
    ∃ err, setFieldValue L field cell = .error err := by
  unfold setFieldValue
  by_cases hp : field.PkgPath ≠ []
  · exact ⟨_, if_pos hp⟩
  · rw [if_neg hp]
    rcases hbad with ⟨hk, ha⟩ | ⟨hk, hf⟩
    · rw [hk]
      simp only [ha]
      exact ⟨_, rfl⟩
    · rw [hk]
      simp only [hf]
      exact ⟨_, rfl⟩

/-- C4, as stated, fails: with the second data row holding the cell `abc` in the `int` column
`age`, `LoadCSV` returns an error, yet the slice behind `out` holds the struct value built
from the first data row, not zero records. -/
theorem LoadCSV_partial_output_counterexample :
    (∀ field ∈ Person, colName exampleRuntime field ∈ headerRow NewCSV2Struct malformedRecords) ∧
    Atoi (str "abc") = none ∧
    LoadCSV exampleRuntime NewCSV2Struct malformedRecords Person [] =
      ([[.str (str "John Doe"), .int 30, .str (str "j@x.com")]],
        some (.TypeCoercionError (str "abc") (str "int"))) ∧
    (LoadCSV exampleRuntime NewCSV2Struct malformedRecords Person []).1 ≠ [] := by
  decide

/-- C4, amended: on at least two rows with every column present, when a cell that is written
to an `int` or `float64` field is malformed, `LoadCSV` returns an error and appends nothing
for the first data row the inner loop fails on nor for any later row; that row is the one of
the malformed cell or an earlier one.  The struct values built from the data rows before it
have been appended, in order, and stay in the slice behind `out`. -/
theorem LoadCSV_malformed_cell (L : Runtime) (c : CSV2Struct)
    (records : List (List GoString)) (structType : List StructField) (out : List Record)
    (k i : Nat) (record : List GoString) (cell : GoString) (fieldIndex : Nat)
    (field : StructField)
    (hrows : 2 ≤ records.length)
    (hpresent : ∀ field ∈ structType, colName L field ∈ headerRow c records)
    (hrecord : (records.drop 1)[k]? = some record) (hcell : record[i]? = some cell)
    (htarget : targetField structType (headerRow c records) (buildStructFields L structType) i =
      some (fieldIndex, field))
    (hbad : (field.Typ.Kind = .Int ∧ Atoi cell = none) ∨
      (field.Typ.Kind = .Float64 ∧ L.ParseFloat cell = none)) :
    ∃ (recs : List Record) (err : Error),
      LoadCSV L c records structType out = (out ++ recs, some err) ∧
      recs.length ≤ k ∧
      (∀ (t : Nat) row, t < recs.length → (records.drop 1)[t]? = some row →
        ∃ rec, recs[t]? = some rec ∧ rowElem L c records structType row = .ok rec) ∧
      ∃ row, (records.drop 1)[recs.length]? = some row ∧
        rowElem L c records structType row = .error err := by
  rw [LoadCSV_of_present L c records structType out hrows hpresent]
  obtain ⟨e, he⟩ := setFieldValue_malformed L field cell hbad
  obtain ⟨e', hfail⟩ := fillElem_error L structType (headerRow c records)
    (buildStructFields L structType) record 0 (newElem structType) i cell fieldIndex field e
    hcell (by rw [Nat.zero_add]; exact htarget) he
  have hklt : k < (records.drop 1).length := by
    by_contra hge
    rw [List.getElem?_eq_none (by omega)] at hrecord
    cases hrecord
  cases hres : appendRows L structType (headerRow c records) (buildStructFields L structType)
      (records.drop 1) out with
  | mk out' err =>
    obtain ⟨recs, hout, hlen, hrecs, hnone, hsome⟩ := appendRows_spec _ _ _ _ _ _ _ _ hres
    have hle : recs.length ≤ k := by
      by_contra hgt
      obtain ⟨rec, _, hok⟩ := hrecs k record (by omega) hrecord
      rw [hok] at hfail
      cases hfail
    cases err with
    | none =>
      have hl := hnone rfl
      omega
    | some err =>
      obtain ⟨row, hr, hrowfail⟩ := hsome err rfl
      exact ⟨recs, err, by rw [hout], hle, hrecs, row, hr, hrowfail⟩

/-- C4 amended, on the rows of `malformedRecords`: the malformed cell is in column 1 of data
row 1. -/
theorem LoadCSV_malformed_cell_witness :
    2 ≤ malformedRecords.length ∧
    (∀ field ∈ Person, colName exampleRuntime field ∈ headerRow NewCSV2Struct malformedRecords) ∧
    (malformedRecords.drop 1)[1]? = some [str "Jane", str "abc", str "jane@x.com"] ∧
    [str "Jane", str "abc", str "jane@x.com"][1]? = some (str "abc") ∧
    targetField Person (headerRow NewCSV2Struct malformedRecords)
      (buildStructFields exampleRuntime Person) 1 =
        some (1, { Name := str "Age", Typ := RType.int, Tag := str "csv:\"age\"" }) ∧
    Atoi (str "abc") = none ∧
    ∃ (recs : List Record) (err : Error),
      LoadCSV exampleRuntime NewCSV2Struct malformedRecords Person [] = ([] ++ recs, some err) ∧
      recs.length ≤ 1 ∧
      (∀ (t : Nat) row, t < recs.length → (malformedRecords.drop 1)[t]? = some row →
        ∃ rec, recs[t]? = some rec ∧
          rowElem exampleRuntime NewCSV2Struct malformedRecords Person row = .ok rec) ∧
      ∃ row, (malformedRecords.drop 1)[recs.length]? = some row ∧
        rowElem exampleRuntime NewCSV2Struct malformedRecords Person row = .error err :=
  ⟨by decide, by decide, by decide, by decide, by decide, by decide,
    LoadCSV_malformed_cell exampleRuntime NewCSV2Struct malformedRecords Person [] 1 1
      [str "Jane", str "abc", str "jane@x.com"] (str "abc") 1
      { Name := str "Age", Typ := RType.int, Tag := str "csv:\"age\"" }
      (by decide) (by decide) (by decide) (by decide) (by decide)
      (Or.inl ⟨by decide, by decide⟩)⟩

/-- C2: when `LoadCSV` returns no error, the renamed header row has no duplicate and no two
fields share a column name, then for every data row at least as long as the header row each
field of the struct value appended for it holds what `setFieldValue` makes, by the field's
type, of the cell in the column headed by the field's column name.  Moreover the cells in
columns beyond the header row, or under a header that is no field's column name, have no
effect: a load of rows that differ from the given ones in such cells only returns the
same. -/
theorem LoadCSV_field_mapping (L : Runtime) (c : CSV2Struct)
    (records : List (List GoString)) (structType : List StructField) (out out' : List Record)
    (hload : LoadCSV L c records structType out = (out', none))
    (hheaders : (headerRow c records).Nodup)
    (hcols : (structType.map (colName L)).Nodup) :
    ∃ recs : List Record, out' = out ++ recs ∧ recs.length = records.length - 1 ∧
      (∀ (k : Nat) record, (records.drop 1)[k]? = some record →
        (headerRow c records).length ≤ record.length →
        ∃ rec, recs[k]? = some rec ∧ rec.length = structType.length ∧
          ∀ (j : Nat) field, structType[j]? = some field →
            ∃ (i : Nat) (cell : GoString) (v : Value),
              (headerRow c records)[i]? = some (colName L field) ∧ record[i]? = some cell ∧
              setFieldValue L field cell = .ok v ∧ rec[j]? = some v) ∧
      (∀ records' : List (List GoString), records'.headD [] = records.headD [] →
        records'.length = records.length →
        (∀ (k : Nat) row row', (records.drop 1)[k]? = some row →
          (records'.drop 1)[k]? = some row' →
          ∀ (i : Nat) h, (headerRow c records)[i]? = some h →
            (∃ field ∈ structType, colName L field = h) → row[i]? = row'[i]?) →
        LoadCSV L c records' structType out = (out', none)) := by
  obtain ⟨hrows, hpresent, happ⟩ := LoadCSV_success L c records structType out out' hload
  obtain ⟨recs, hout, _, hrecs, hnone, _⟩ := appendRows_spec _ _ _ _ _ _ _ _ happ
  have hl := hnone rfl
  refine ⟨recs, hout, by rw [hl]; simp, ?_, ?_⟩
  · intro k record hk hlong
    have hklt : k < recs.length := by
      rw [hl]
      by_contra hge
      rw [List.getElem?_eq_none (by omega)] at hk
      cases hk
    obtain ⟨rec, hrec, hok⟩ := hrecs k record hklt hk
    obtain ⟨h1, _, h3⟩ := rowElem_spec L c records structType record rec hok
    refine ⟨rec, hrec, h1, ?_⟩
    intro j field hj
    obtain ⟨i, hi⟩ := List.getElem?_of_mem (hpresent field (List.getElem?_mem hj))
    have hilt : i < (headerRow c records).length := (List.getElem?_eq_some.mp hi).1
    have hirec : i < record.length := by omega
    have htarget : targetField structType (headerRow c records)
        (buildStructFields L structType) i = some (j, field) := by
      rw [targetField_eq_some]
      refine ⟨hj, hi, ?_⟩
      intro j' field' hjj hj' heq
      have hjlt : j < (structType.map (colName L)).length := by
        simpa using (List.getElem?_eq_some.mp hj).1
      have := List.getElem?_inj hjlt hcols
        (show (structType.map (colName L))[j]? = (structType.map (colName L))[j']? by
          simp [hj, hj', heq])
      omega
    obtain ⟨v, hv, hrv⟩ := h3 i record[i] j field (List.getElem?_eq_getElem hirec) htarget
      (by
        intro t' hlt _ heq
        have := List.getElem?_inj hilt hheaders heq.symm
        omega)
    exact ⟨i, record[i], v, hi, List.getElem?_eq_getElem hirec, hv, hrv⟩
  · intro records' hhead hlen hagree
    have hhr : headerRow c records' = headerRow c records := by
      rw [headerRow, headerRow, hhead]
    rw [LoadCSV_of_present L c records' structType out (by omega) (by rw [hhr]; exact hpresent),
      hhr, ← happ]
    apply appendRows_congr
    · simp [hlen]
    · intro k row' row hr' hr
      apply fillElem_agree
      intro t ht
      rw [Nat.zero_add] at ht
      cases htf : targetField structType (headerRow c records)
          (buildStructFields L structType) t with
      | none => exact absurd htf ht
      | some tf =>
        obtain ⟨j, field⟩ := tf
        obtain ⟨hf, hh, _⟩ := (targetField_eq_some L structType _ t j field).mp htf
        exact (hagree k row row' hr hr' t _ hh ⟨field, List.getElem?_mem hf, rfl⟩).symm

/-- C2, on the rows of `example/example.csv` and the struct `Person`: the two struct values
are (John Doe, 30, j@x.com) and (Jane, 25, jane@x.com). -/
theorem LoadCSV_field_mapping_witness :
    LoadCSV exampleRuntime NewCSV2Struct exampleRecords Person [] =
      ([[.str (str "John Doe"), .int 30, .str (str "j@x.com")],
        [.str (str "Jane"), .int 25, .str (str "jane@x.com")]], none) ∧
    (headerRow NewCSV2Struct exampleRecords).Nodup ∧
    (Person.map (colName exampleRuntime)).Nodup ∧
    ∃ recs : List Record,
      [[Value.str (str "John Doe"), .int 30, .str (str "j@x.com")],
        [.str (str "Jane"), .int 25, .str (str "jane@x.com")]] = [] ++ recs ∧
      recs.length = exampleRecords.length - 1 :=
  ⟨by decide, by decide, by decide,
    (LoadCSV_field_mapping exampleRuntime NewCSV2Struct exampleRecords Person [] _
      (by decide) (by decide) (by decide)).imp (fun _ h => ⟨h.1, h.2.1⟩)⟩

/-- C5: when `LoadCSV` returns no error on a header row and data rows, it returns no error
and leaves the same slice behind `out` on the input that has one more column at position `p`
of the header row and of every data row, the added header, renamed, being no field's column
name and the added cells being arbitrary. -/
theorem LoadCSV_extra_column (L : Runtime) (c : CSV2Struct) (header : List GoString)
    (rows : List (List GoString)) (structType : List StructField) (out out' : List Record)
    (p : Nat) (name : GoString) (cells : List GoString)
    (hload : LoadCSV L c (header :: rows) structType out = (out', none))
    (hname : ∀ field ∈ structType, colName L field ≠ renamed c.customMap name)
    (hcells : cells.length = rows.length) :
    LoadCSV L c (insertColumn p name header :: List.zipWith (insertColumn p) cells rows)
      structType out = (out', none) := by
  obtain ⟨hrows, hpresent, happ⟩ := LoadCSV_success L c _ structType out out' hload
  have hget : (buildStructFields L structType).get? (renamed c.customMap name) = none := by
    rw [GoMap.get?_eq_none_iff, mem_keys_buildStructFields]
    rintro ⟨field, hf, heq⟩
    exact hname field hf heq
  have hhr : headerRow c (insertColumn p name header ::
      List.zipWith (insertColumn p) cells rows) =
        insertColumn p (renamed c.customMap name) (headerRow c (header :: rows)) := by
    simp only [headerRow, List.headD_cons, resolveHeaders_eq_map, map_insertColumn]
  have hlen : (List.zipWith (insertColumn p) cells rows).length = rows.length := by
    simp [hcells]
  rw [LoadCSV_of_present L c _ structType out (by simp only [List.length_cons] at hrows ⊢; omega)
    (by rw [hhr]; exact fun field hf => mem_insertColumn _ _ _ _ (hpresent field hf)),
    hhr, ← happ]
  apply appendRows_congr
  · simp [hcells]
  · intro k row' row hr' hr
    simp only [List.drop_succ_cons, List.drop_zero] at hr hr'
    rw [List.getElem?_zipWith] at hr'
    rw [hr] at hr'
    cases hc : cells[k]? with
    | none => rw [hc] at hr'; cases hr'
    | some cell =>
      rw [hc] at hr'
      simp only [Option.some.injEq] at hr'
      subst hr'
      rw [fillElem_eq_fillZip, fillElem_eq_fillZip, List.drop_zero, List.drop_zero,
        fillZip_insertColumn L structType _ _ _ hget]

/-- C5, on the rows of `example/example.csv` with a column `phone` added before `email`. -/
theorem LoadCSV_extra_column_witness :
    LoadCSV exampleRuntime NewCSV2Struct
      ([str "name", str "age", str "email"] ::
        [[str "John Doe", str "30", str "j@x.com"], [str "Jane", str "25", str "jane@x.com"]])
      Person [] =
      ([[.str (str "John Doe"), .int 30, .str (str "j@x.com")],
        [.str (str "Jane"), .int 25, .str (str "jane@x.com")]], none) ∧
    (∀ field ∈ Person,
      colName exampleRuntime field ≠ renamed NewCSV2Struct.customMap (str "phone")) ∧
    [str "555-1234", str "555-5678"].length =
      [[str "John Doe", str "30", str "j@x.com"],
        [str "Jane", str "25", str "jane@x.com"]].length ∧
    extraColumnRecords =
      [[str "name", str "age", str "phone", str "email"],
        [str "John Doe", str "30", str "555-1234", str "j@x.com"],
        [str "Jane", str "25", str "555-5678", str "jane@x.com"]] ∧
    LoadCSV exampleRuntime NewCSV2Struct extraColumnRecords Person [] =
      ([[.str (str "John Doe"), .int 30, .str (str "j@x.com")],
        [.str (str "Jane"), .int 25, .str (str "jane@x.com")]], none) :=
  ⟨by decide, by decide, by decide, by decide,
    LoadCSV_extra_column exampleRuntime NewCSV2Struct [str "name", str "age", str "email"]
      [[str "John Doe", str "30", str "j@x.com"], [str "Jane", str "25", str "jane@x.com"]]
      Person [] _ 2 (str "phone") [str "555-1234", str "555-5678"]
      (by decide) (by decide) (by decide)⟩

/-- C9: the keys of the map `GetColumnType` returns are exactly the column names of the
fields after renaming by the custom map, the column name of a field with an empty `csv` tag
being its name; the value at a key is the type name of the last field, in declaration order,
whose renamed column name is that key, and the predeclared types `string`, `int` and
`float64` have the type names "string", "int" and "float64". -/
theorem GetColumnType_spec (L : Runtime) (c : CSV2Struct) (structType : List StructField) :
    (∀ k, k ∈ (GetColumnType L c structType).keys ↔
      ∃ field ∈ structType, reportName L c field = k) ∧
    (∀ (j : Nat) field, structType[j]? = some field →
      (∀ (j' : Nat) field', j < j' → structType[j']? = some field' →
        reportName L c field' ≠ reportName L c field) →
      (GetColumnType L c structType).get? (reportName L c field) = some field.Typ.Name) ∧
    (∀ k v, (GetColumnType L c structType).get? k = some v →
      ∃ (j : Nat) (field : StructField), structType[j]? = some field ∧
        reportName L c field = k ∧ field.Typ.Name = v ∧
        ∀ (j' : Nat) field', j < j' → structType[j']? = some field' →
          reportName L c field' ≠ k) ∧
    (∀ field : StructField, L.tagGet field.Tag (str "csv") = [] →
      reportName L c field = renamed c.customMap field.Name) ∧
    (∀ field : StructField, L.tagGet field.Tag (str "csv") ≠ [] →
      reportName L c field = renamed c.customMap (L.tagGet field.Tag (str "csv"))) ∧
    RType.string.Name = str "string" ∧ RType.int.Name = str "int" ∧
    RType.float64.Name = str "float64" := by
  refine ⟨?_, ?_, ?_, ?_, ?_, rfl, rfl, rfl⟩
  · intro k
    rw [GetColumnType_eq_foldl, mem_keys_foldl_set]
    simp [GoMap.keys]
  · intro j field hj hlater
    rw [GetColumnType_eq_foldl, foldl_set_get?]
    exact Or.inl ⟨j, field, hj, rfl, rfl, hlater⟩
  · intro k v hget
    rw [GetColumnType_eq_foldl, foldl_set_get?] at hget
    rcases hget with h | ⟨h, _⟩
    · exact h
    · simp [GoMap.get?] at h
  · intro field htag
    simp [reportName, colName, htag]
  · intro field htag
    simp [reportName, colName, htag]

/-- C9, on the test `TestCustomMap`: with the custom map {name: full_name, age: years} the
struct `Person` is reported as {full_name: string, years: int, email: string}. -/
theorem GetColumnType_spec_witness :
    GetColumnType exampleRuntime (SetCustomMap NewCSV2Struct testCustomMap) Person =
      [(str "full_name", str "string"), (str "years", str "int"), (str "email", str "string")] ∧
    ∀ k, k ∈ (GetColumnType exampleRuntime (SetCustomMap NewCSV2Struct testCustomMap)
        Person).keys ↔
      ∃ field ∈ Person,
        reportName exampleRuntime (SetCustomMap NewCSV2Struct testCustomMap) field = k :=
  ⟨by decide,
    (GetColumnType_spec exampleRuntime (SetCustomMap NewCSV2Struct testCustomMap) Person).1⟩

/-- C10, as stated, fails: on the header row of the line `name,` the second header is the
empty string, the field synthesised for it has the empty name, and `GenerateStruct` ends in
the panic "reflect.StructOf: field 1 has no name" instead of returning a struct type. -/
theorem GenerateStruct_empty_header_counterexample :
    [str "name", []] ≠ [] ∧
    GenerateStruct exampleRuntime NewCSV2Struct [[str "name", []]] = .panic (.NoName 1) := by
  decide

/-- C10, amended: on a non-empty header row in which every header is non-empty, does not
start with an underscore and capitalises to a name `reflect.StructOf` accepts as an
identifier, and no two headers capitalise to the same name, `GenerateStruct` returns a struct
type with exactly one field per header, in header order; field `i` is exported, has the
capitalised header `i` as name, the type `string` and the tag `csv:"h"` with `h` header `i`
verbatim.  The custom map is not consulted. -/
theorem GenerateStruct_spec (L : Runtime) (c : CSV2Struct) (headers : List GoString)
    (rest : List (List GoString))
    (_hne : headers ≠ [])
    (hvalid : ∀ h ∈ headers, h ≠ [] ∧ h.head? ≠ some 95 ∧
      L.isValidFieldName (capitalize h) = true)
    (hdistinct : (headers.map capitalize).Nodup) :
    ∃ structType : List StructField,
      GenerateStruct L c (headers :: rest) = .ok structType ∧
      structType.length = headers.length ∧
      (∀ (i : Nat) h, headers[i]? = some h →
        structType[i]? = some
          { Name := capitalize h
            PkgPath := []
            Typ := RType.string
            Tag := str "csv:\"" ++ h ++ str "\"" }) ∧
      ∀ c' : CSV2Struct, GenerateStruct L c' (headers :: rest) = .ok structType := by
  have hloop : structOfLoop L 0 [] [] (headers.map headerField) = none := by
    apply structOfLoop_none
    · intro field hf
      obtain ⟨h, hh, rfl⟩ := List.mem_map.mp hf
      obtain ⟨h1, h2, h3⟩ := hvalid h hh
      obtain ⟨g1, g2, g3⟩ := capitalize_head h h1 h2
      exact ⟨g1, h3, rfl, g2, g3⟩
    · simpa [List.map_map, Function.comp_def, headerField] using hdistinct
    · intro field _
      simp
  have hgen : ∀ c' : CSV2Struct,
      GenerateStruct L c' (headers :: rest) = .ok (headers.map headerField) := by
    intro c'
    have : StructOf L (headers.map headerField) = .ok (headers.map headerField) := by
      simp only [StructOf, hloop]
    simp only [GenerateStruct, List.length_cons, List.headD_cons]
    rw [if_neg (by omega)]
    change (match StructOf L (headers.map headerField) with
      | .error p => Outcome.panic p
      | .ok structType => Outcome.ok structType) = _
    rw [this]
  refine ⟨headers.map headerField, hgen c, by simp, ?_, hgen⟩
  intro i h hi
  simp [hi, headerField]

/-- C10 amended, on the header row of `example/example.csv`: three `string` fields named
Name, Age and Email with the tags csv:"name", csv:"age" and csv:"email". -/
theorem GenerateStruct_spec_witness :
    [str "name", str "age", str "email"] ≠ [] ∧
    (∀ h ∈ [str "name", str "age", str "email"], h ≠ [] ∧ h.head? ≠ some 95 ∧
      exampleRuntime.isValidFieldName (capitalize h) = true) ∧
    ([str "name", str "age", str "email"].map capitalize).Nodup ∧
    GenerateStruct exampleRuntime NewCSV2Struct exampleRecords =
      .ok [ { Name := str "Name", Typ := RType.string, Tag := str "csv:\"name\"" },
            { Name := str "Age", Typ := RType.string, Tag := str "csv:\"age\"" },
            { Name := str "Email", Typ := RType.string, Tag := str "csv:\"email\"" } ] ∧
    ∃ structType : List StructField,
      GenerateStruct exampleRuntime NewCSV2Struct
        ([str "name", str "age", str "email"] :: exampleRecords.drop 1) = .ok structType ∧
      structType.length = [str "name", str "age", str "email"].length :=
  ⟨by decide, by decide, by decide, by decide,
    (GenerateStruct_spec exampleRuntime NewCSV2Struct [str "name", str "age", str "email"]
      (exampleRecords.drop 1) (by decide) (by decide) (by decide)).imp
      (fun _ h => ⟨h.1, h.2.1⟩)⟩

/-! ## Capitalisation -/

set_option maxRecDepth 100000 in
theorem ToUpper1_ascii : ∀ c : UInt8, c.toNat < 128 →
    ToUpper1 c = [asciiUpper c] ∧ (asciiUpper c).toNat < 128 ∧
      asciiUpper (asciiUpper c) = asciiUpper c ∧
      ((97 ≤ c.toNat ∧ c.toNat ≤ 122) → (asciiUpper c).toNat = c.toNat - 32) ∧
      (¬ (97 ≤ c.toNat ∧ c.toNat ≤ 122) → asciiUpper c = c) := by
  intro c
  cases c with
  | mk v =>
    revert v
    decide

/-- C11: the code at a header whose first character is not ASCII.  The first byte of
`école`, C3, is cut off alone and comes back from `strings.ToUpper` as the three bytes of
U+FFFD, followed by the stray second byte A9 of the `é`: the result is two bytes longer than
the header, is not the header, and is not `École`, the header with its first character
upper-cased.  The empty header and a header starting with an ASCII letter are capitalised as
the specification says. -/
theorem capitalize_non_ascii_first :
    str "école" = [0xC3, 0xA9] ++ str "cole" ∧
    str "École" = [0xC3, 0x89] ++ str "cole" ∧
    capitalize (str "école") = [0xEF, 0xBF, 0xBD, 0xA9] ++ str "cole" ∧
    capitalize (str "école") ≠ str "École" ∧
    capitalize (str "école") ≠ str "école" ∧
    (capitalize (str "école")).length = (str "école").length + 2 ∧
    capitalize [] = [] ∧
    capitalize (str "name") = str "Name" := by
  decide

/-- C20: on a string whose first byte `c` is ASCII, `capitalize` keeps the length, keeps
every byte after the first, puts the ASCII upper-case form of `c` first (`c` less 32 when `c`
is a lower-case letter, `c` itself otherwise), and is idempotent. -/
theorem capitalize_ascii (s : GoString) (c : UInt8) (hs : s.head? = some c)
    (hc : c.toNat < 128) :
    (capitalize s).length = s.length ∧
    (∀ i : Nat, 1 ≤ i → (capitalize s)[i]? = s[i]?) ∧
    (capitalize s).head? = some (asciiUpper c) ∧
    ((97 ≤ c.toNat ∧ c.toNat ≤ 122) → (asciiUpper c).toNat = c.toNat - 32) ∧
    (¬ (97 ≤ c.toNat ∧ c.toNat ≤ 122) → (capitalize s).head? = some c) ∧
    capitalize (capitalize s) = capitalize s := by
  cases s with
  | nil => simp at hs
  | cons c' rest =>
    have hcc : c' = c := by simpa using hs
    subst hcc
    obtain ⟨h1, h2, h3, h4, h5⟩ := ToUpper1_ascii c' hc
    have hcap : capitalize (c' :: rest) = asciiUpper c' :: rest := by
      simp only [capitalize, h1, List.singleton_append]
    have hcap2 : capitalize (asciiUpper c' :: rest) = asciiUpper c' :: rest := by
      simp only [capitalize, (ToUpper1_ascii (asciiUpper c') h2).1, h3, List.singleton_append]
    refine ⟨by rw [hcap]; rfl, ?_, by rw [hcap]; rfl, h4, ?_, by rw [hcap, hcap2]⟩
    · intro i hi
      rw [hcap]
      cases i with
      | zero => omega
      | succ i => simp
    · intro hlow
      rw [hcap, h5 hlow]
      rfl

/-- C20, on the header `name` of `example/example.csv`. -/
theorem capitalize_ascii_witness :
    (str "name").head? = some 110 ∧ (110 : UInt8).toNat < 128 ∧
    capitalize (str "name") = str "Name" ∧
    (capitalize (str "name")).length = (str "name").length ∧
    capitalize (capitalize (str "name")) = capitalize (str "name") :=
  ⟨by decide, by decide, by decide,
    (capitalize_ascii (str "name") 110 (by decide) (by decide)).1,
    (capitalize_ascii (str "name") 110 (by decide) (by decide)).2.2.2.2.2⟩

/-! ## Struct synthesis and its input -/

theorem GenerateStruct_cons (L : Runtime) (c : CSV2Struct) (headers : List GoString)
    (rest : List (List GoString)) :
    GenerateStruct L c (headers :: rest) =
      match StructOf L (headers.map headerField) with
      | .error p => .panic p
      | .ok structType => .ok structType := by
  simp only [GenerateStruct, List.length_cons, List.headD_cons]
  rw [if_neg (by omega)]
  rfl

/-! ## Coercion by kind -/

/-- C14, as stated, fails: a `string` field that is not exported cannot be set, and
`setFieldValue` returns the error "cannot set value for field string" instead of storing
the cell; on an unexported `bool` field the error is that one too, not "unsupported field
type". -/
theorem setFieldValue_unexported_counterexample :
    setFieldValue exampleRuntime
        { Name := str "name", PkgPath := str "main", Typ := RType.string } (str "John") =
      .error (.CannotSet (str "string")) ∧
    setFieldValue exampleRuntime
        { Name := str "ok", PkgPath := str "main", Typ := ⟨str "bool", .Bool⟩ } (str "true") =
      .error (.CannotSet (str "bool")) := by
  decide

/-- C14, amended: on a field that can be set, which is an exported one, `setFieldValue`
stores every cell verbatim when the field is of kind `string`, and returns the error
"unsupported field type" naming the field's type, whatever the cell, when the kind is none of
`string`, `int` and `float64`.  On a field that cannot be set it returns the error "cannot
set value for field" whatever the kind and the cell. -/
theorem setFieldValue_by_kind (L : Runtime) (field : StructField) (s : GoString) :
    (field.PkgPath = [] → field.Typ.Kind = .String →
      setFieldValue L field s = .ok (.str s)) ∧
    (field.PkgPath = [] → field.Typ.Kind ≠ .String → field.Typ.Kind ≠ .Int →
      field.Typ.Kind ≠ .Float64 →
      setFieldValue L field s = .error (.UnsupportedType field.Typ.Name)) ∧
    (field.PkgPath ≠ [] → setFieldValue L field s = .error (.CannotSet field.Typ.Name)) := by
  refine ⟨?_, ?_, ?_⟩
  · intro hp hk
    simp [setFieldValue, hp, hk]
  · intro hp h1 h2 h3
    unfold setFieldValue
    rw [if_neg (by simpa using hp)]
    cases hk : field.Typ.Kind
    all_goals first | rfl | exact absurd hk h1 | exact absurd hk h2 | exact absurd hk h3
  · intro hp
    simp [setFieldValue, hp]

/-- C14 amended, on the exported fields `Name string` of `Person` and `Ok bool`. -/
theorem setFieldValue_by_kind_witness :
    setFieldValue exampleRuntime
        { Name := str "Name", Typ := RType.string, Tag := str "csv:\"name\"" } (str " John ") =
      .ok (.str (str " John ")) ∧
    setFieldValue exampleRuntime { Name := str "Ok", Typ := ⟨str "bool", .Bool⟩ } (str "true") =
      .error (.UnsupportedType (str "bool")) :=
  ⟨(setFieldValue_by_kind exampleRuntime
      { Name := str "Name", Typ := RType.string, Tag := str "csv:\"name\"" } (str " John ")).1
      (by decide) (by decide),
    (setFieldValue_by_kind exampleRuntime { Name := str "Ok", Typ := ⟨str "bool", .Bool⟩ }
      (str "true")).2.1 (by decide) (by decide) (by decide) (by decide)⟩

/-! ## The column-type report, called again -/

theorem GoMap.keys_set_nodup {β : Type} (m : GoMap β) (k : GoString) (v : β)
    (h : m.keys.Nodup) : (m.set k v).keys.Nodup := by
  induction m with
  | nil => simp [GoMap.set, GoMap.keys]
  | cons kv rest ih =>
    obtain ⟨k₀, v₀⟩ := kv
    have h' : k₀ ∉ GoMap.keys rest ∧ (GoMap.keys rest).Nodup := by
      simpa [GoMap.keys] using h
    by_cases hk : k₀ = k
    · subst hk
      simpa [GoMap.set, GoMap.keys] using h
    · have hnot : k₀ ∉ GoMap.keys (GoMap.set rest k v) := by
        rw [GoMap.mem_keys_set]
        rintro (h1 | h1)
        · exact hk h1
        · exact h'.1 h1
      have hrest := ih h'.2
      simp only [GoMap.set, hk, if_false]
      simp only [GoMap.keys, List.map_cons, List.nodup_cons]
      exact ⟨hnot, hrest⟩

theorem foldl_set_keys_nodup (L : Runtime) (c : CSV2Struct) (fields : List StructField) :
    ∀ m : GoMap GoString, m.keys.Nodup →
      (fields.foldl (fun (types : GoMap GoString) field =>
        types.set (reportName L c field) field.Typ.Name) m).keys.Nodup := by
  induction fields with
  | nil => intro m h; exact h
  | cons f fs ih =>
    intro m h
    rw [List.foldl_cons]
    exact ih _ (GoMap.keys_set_nodup m _ _ h)

/-- C15: two calls of `GetColumnType` in a row, with the same struct type, return the same
map, binding by binding, the map has one binding per key, and the custom map of the receiver
is after each call what it was before the first. -/
theorem GetColumnType_idempotent (L : Runtime) (c : CSV2Struct)
    (structType : List StructField) :
    (GetColumnTypeCall L structType (GetColumnTypeCall L structType c).1).2 =
      (GetColumnTypeCall L structType c).2 ∧
    (∀ k, (GetColumnTypeCall L structType (GetColumnTypeCall L structType c).1).2.get? k =
      (GetColumnTypeCall L structType c).2.get? k) ∧
    (GetColumnTypeCall L structType c).2.keys.Nodup ∧
    (GetColumnTypeCall L structType c).1.customMap = c.customMap ∧
    (GetColumnTypeCall L structType (GetColumnTypeCall L structType c).1).1.customMap =
      c.customMap := by
  refine ⟨rfl, fun _ => rfl, ?_, rfl, rfl⟩
  simp only [GetColumnTypeCall, GetColumnType_eq_foldl]
  exact foldl_set_keys_nodup L c structType [] (by simp [GoMap.keys])

/-! ## Integers -/

theorem parseDigits_eq_some (digits : List UInt8) :
    ∀ n v : Nat, parseDigits digits n = some v ↔
      (∀ d ∈ digits, 48 ≤ d.toNat ∧ d.toNat ≤ 57) ∧
        v = digits.foldl (fun n d => n * 10 + (d.toNat - 48)) n := by
  induction digits with
  | nil =>
    intro n v
    simp only [parseDigits, Option.some.injEq, List.not_mem_nil, false_implies, implies_true,
      List.foldl_nil, true_and]
    exact eq_comm
  | cons d rest ih =>
    intro n v
    rw [parseDigits]
    by_cases hd : 48 ≤ d.toNat ∧ d.toNat ≤ 57
    · rw [if_pos hd, ih]
      simp only [List.mem_cons, forall_eq_or_imp, List.foldl_cons]
      constructor
      · rintro ⟨h1, h2⟩
        exact ⟨⟨hd, h1⟩, h2⟩
      · rintro ⟨⟨_, h1⟩, h2⟩
        exact ⟨h1, h2⟩
    · rw [if_neg hd]
      constructor
      · intro h
        cases h
      · rintro ⟨h, _⟩
        exact absurd (h d (List.mem_cons_self _ _)) hd

theorem digit_ne_sign (d : UInt8) (hd : 48 ≤ d.toNat ∧ d.toNat ≤ 57) : d ≠ 45 ∧ d ≠ 43 := by
  constructor
  · rintro rfl
    exact absurd hd (by decide)
  · rintro rfl
    exact absurd hd (by decide)

/-- The function `Atoi` on a string split into an optional sign and a non-empty run of
digits: the number denoted, unless it lies outside the range of `int`. -/
theorem Atoi_of_parts (sign digits : GoString)
    (hsign : sign = [] ∨ sign = [43] ∨ sign = [45]) (hne : digits ≠ [])
    (hdigits : ∀ d ∈ digits, 48 ≤ d.toNat ∧ d.toNat ≤ 57) :
    Atoi (sign ++ digits) =
      if sign = [45] then
        (if decimalValue digits > 2 ^ (intSize - 1) then none
          else some (-(decimalValue digits : Int)))
      else
        (if decimalValue digits ≥ 2 ^ (intSize - 1) then none
          else some (decimalValue digits : Int)) := by
  have hparse : parseDigits digits 0 = some (decimalValue digits) :=
    (parseDigits_eq_some digits 0 _).mpr ⟨hdigits, rfl⟩
  cases digits with
  | nil => exact absurd rfl hne
  | cons d rest =>
    rcases hsign with rfl | rfl | rfl
    · obtain ⟨h45, h43⟩ := digit_ne_sign d (hdigits d (List.mem_cons_self _ _))
      simp only [List.nil_append, Atoi, h45, h43, or_self, if_false, hparse, List.cons.injEq,
        false_and, List.cons_ne_self]
      rfl
    · simp only [List.singleton_append, Atoi]
      simp [hparse]
    · simp only [List.singleton_append, Atoi]
      simp [hparse]

theorem Atoi_eq_some (s : GoString) (n : Int) (h : Atoi s = some n) : IsSignedDecimal s n := by
  have e63 : (2 : Int) ^ (64 - 1) = 9223372036854775808 := by norm_num
  cases s with
  | nil => simp [Atoi] at h
  | cons s0 rest =>
    by_cases hs : s0 = 45 ∨ s0 = 43
    · cases rest with
      | nil => simp [Atoi, hs] at h
      | cons d ds =>
        simp only [Atoi, hs, if_true] at h
        cases hp : parseDigits (d :: ds) 0 with
        | none => rw [hp] at h; cases h
        | some un =>
          rw [hp] at h
          obtain ⟨hdig, hun⟩ := (parseDigits_eq_some _ _ _).mp hp
          have hval : decimalValue (d :: ds) = un := hun.symm
          simp only [intSize] at h
          rcases hs with rfl | rfl
          · refine ⟨[45], d :: ds, rfl, Or.inr (Or.inr rfl), by simp, hdig, ?_⟩
            simp at h
            obtain ⟨hle, rfl⟩ := h
            simp only [if_true, hval, intSize, e63]
            refine ⟨trivial, ?_, ?_⟩ <;> omega
          · refine ⟨[43], d :: ds, rfl, Or.inr (Or.inl rfl), by simp, hdig, ?_⟩
            have h4345 : ([43] : GoString) ≠ [45] := by decide
            simp at h
            obtain ⟨hlt, rfl⟩ := h
            simp only [h4345, if_false, hval, intSize, e63]
            refine ⟨trivial, ?_, ?_⟩ <;> omega
    · have h45 : s0 ≠ 45 := fun e => hs (Or.inl e)
      simp only [Atoi, hs, if_false] at h
      cases hp : parseDigits (s0 :: rest) 0 with
      | none => rw [hp] at h; cases h
      | some un =>
        rw [hp] at h
        obtain ⟨hdig, hun⟩ := (parseDigits_eq_some _ _ _).mp hp
        have hval : decimalValue (s0 :: rest) = un := hun.symm
        simp only [intSize, h45, if_false] at h
        refine ⟨[], s0 :: rest, rfl, Or.inl rfl, by simp, hdig, ?_⟩
        have hnil : ([] : GoString) ≠ [45] := by decide
        simp at h
        obtain ⟨hlt, rfl⟩ := h
        simp only [hnil, if_false, hval, intSize, e63]
        refine ⟨trivial, ?_, ?_⟩ <;> omega

theorem Atoi_eq_some_iff (s : GoString) (n : Int) : Atoi s = some n ↔ IsSignedDecimal s n := by
  constructor
  · exact Atoi_eq_some s n
  · rintro ⟨sign, digits, rfl, hsign, hne, hdig, hn, hlo, hhi⟩
    rw [Atoi_of_parts sign digits hsign hne hdig]
    simp only [intSize] at hlo hhi ⊢
    by_cases hs : sign = [45]
    · simp only [hs, if_true] at hn ⊢
      subst hn
      rw [if_neg (by omega)]
    · simp only [hs, if_false] at hn ⊢
      subst hn
      rw [if_neg (by omega)]

theorem setFieldValue_int_eq (L : Runtime) (field : StructField) (s : GoString)
    (hset : field.PkgPath = []) (hkind : field.Typ.Kind = .Int) :
    setFieldValue L field s =
      match Atoi s with
      | none => .error (.TypeCoercionError s (str "int"))
      | some intValue => .ok (.int intValue) := by
  unfold setFieldValue
  rw [if_neg (by simp [hset]), hkind]

theorem not_isSignedDecimal_of_tail (s : GoString)
    (h : ∃ b ∈ s.drop 1, ¬ (48 ≤ b.toNat ∧ b.toNat ≤ 57)) (n : Int) :
    ¬ IsSignedDecimal s n := by
  rintro ⟨sign, digits, rfl, hsign, _, hdig, _⟩
  obtain ⟨b, hb, hnot⟩ := h
  apply hnot
  apply hdig
  rcases hsign with rfl | rfl | rfl
  · exact List.mem_of_mem_drop hb
  · simpa using hb
  · simpa using hb

theorem not_isSignedDecimal_of_head (s : GoString)
    (h : ∃ b, s.head? = some b ∧ ¬ (48 ≤ b.toNat ∧ b.toNat ≤ 57) ∧ b ≠ 43 ∧ b ≠ 45) (n : Int) :
    ¬ IsSignedDecimal s n := by
  rintro ⟨sign, digits, rfl, hsign, hne, hdig, _⟩
  obtain ⟨b, hb, hnot, h43, h45⟩ := h
  rcases hsign with rfl | rfl | rfl
  · cases digits with
    | nil => exact hne rfl
    | cons d rest =>
      have hbd : d = b := by simpa using hb
      subst hbd
      exact hnot (hdig d (List.mem_cons_self _ _))
  · exact h43 (by simpa using hb.symm)
  · exact h45 (by simpa using hb.symm)

theorem not_isSignedDecimal_of_overflow (s : GoString)
    (hall : ∀ d ∈ s, 48 ≤ d.toNat ∧ d.toNat ≤ 57)
    (hbig : 2 ^ (intSize - 1) ≤ decimalValue s) (n : Int) : ¬ IsSignedDecimal s n := by
  rintro ⟨sign, digits, rfl, hsign, _, _, hn, _, hhi⟩
  rcases hsign with rfl | rfl | rfl
  · have hnil : ([] : GoString) ≠ [45] := by decide
    simp only [hnil, if_false] at hn
    subst hn
    simp only [List.nil_append, intSize] at hbig hhi
    omega
  · exact absurd (hall 43 (by simp)) (by decide)
  · exact absurd (hall 45 (by simp)) (by decide)

/-! ## The name reported by the presence check -/

theorem LoadCSV_of_missing (L : Runtime) (c : CSV2Struct) (records : List (List GoString))
    (structType : List StructField) (out : List Record) (name : GoString)
    (hrows : 2 ≤ records.length)
    (hm : missingColumn L (buildStructFields L structType) (headerRow c records) = some name) :
    LoadCSV L c records structType out = (out, some (.MissingColumn name)) := by
  rw [headerRow] at hm
  simp only [LoadCSV, show ¬ records.length < 2 by omega, if_false, hm]

theorem missingColumn_isSome (L : Runtime) (structType : List StructField)
    (headers : List GoString)
    (hmissing : ∃ field ∈ structType, colName L field ∉ headers) :
    ∃ name, missingColumn L (buildStructFields L structType) headers = some name := by
  cases hm : missingColumn L (buildStructFields L structType) headers with
  | some name => exact ⟨name, rfl⟩
  | none =>
    rw [missingColumn_eq_none] at hm
    obtain ⟨field, hf, habs⟩ := hmissing
    exact absurd (hm _ ((mem_keys_buildStructFields L structType _).mpr ⟨field, hf, rfl⟩)) habs

/-- C16, as stated, fails: with the columns `age` and `email` of `Person` both missing, a
runtime whose `range` visits the keys of `structFields` in reverse order reports `email`,
the column name of the last field, and one that visits them in insertion order reports
`age`: the name is not determined by the struct type and the header row. -/
theorem LoadCSV_missing_column_order_counterexample :
    Person.map (colName reversedRuntime) = [str "name", str "age", str "email"] ∧
    LoadCSV reversedRuntime NewCSV2Struct nameOnlyRecords Person [] =
      ([], some (.MissingColumn (str "email"))) ∧
    LoadCSV exampleRuntime NewCSV2Struct nameOnlyRecords Person [] =
      ([], some (.MissingColumn (str "age"))) := by
  decide

/-- C16, amended: when column names of the struct are absent from the renamed header row,
`LoadCSV` returns the error "missing required column" for the first absent column name in
the order in which the `range` over `structFields` visits the column names, an order Go
leaves unspecified: the name reported is an absent column name of some field, every column
name visited before it is present, and it is determined by the struct type and the header
row when only one column name is absent. -/
theorem LoadCSV_missing_column_in_range_order (L : Runtime) (c : CSV2Struct)
    (records : List (List GoString)) (structType : List StructField) (out : List Record)
    (hrows : 2 ≤ records.length)
    (hmissing : ∃ field ∈ structType, colName L field ∉ headerRow c records) :
    ∃ (name : GoString) (before after : List GoString),
      LoadCSV L c records structType out = (out, some (.MissingColumn name)) ∧
      L.rangeOrder (buildStructFields L structType).keys = before ++ name :: after ∧
      (∀ k ∈ before, k ∈ headerRow c records) ∧
      name ∉ headerRow c records ∧
      (∃ field ∈ structType, colName L field = name) ∧
      (∀ only : GoString,
        (∀ field ∈ structType, colName L field ∉ headerRow c records →
          colName L field = only) → name = only) := by
  obtain ⟨name, hm⟩ := missingColumn_isSome L structType (headerRow c records) hmissing
  obtain ⟨hkey, habs⟩ := missingColumn_eq_some L _ _ name hm
  obtain ⟨field, hf, hname⟩ := (mem_keys_buildStructFields L structType name).mp hkey
  have hfind := hm
  simp only [missingColumn] at hfind
  obtain ⟨_, before, after, hsplit, hbefore⟩ := List.find?_eq_some.mp hfind
  refine ⟨name, before, after, LoadCSV_of_missing L c records structType out name hrows hm,
    hsplit, ?_, habs, ⟨field, hf, hname⟩, ?_⟩
  · intro k hk
    simpa using hbefore k hk
  · intro only honly
    rw [← hname]
    exact honly field hf (by rw [hname]; exact habs)

/-- C16 amended, on the file with the column `name` only, under both runtimes. -/
theorem LoadCSV_missing_column_in_range_order_witness :
    2 ≤ nameOnlyRecords.length ∧
    (∃ field ∈ Person, colName reversedRuntime field ∉ headerRow NewCSV2Struct nameOnlyRecords) ∧
    ∃ (name : GoString) (before after : List GoString),
      LoadCSV reversedRuntime NewCSV2Struct nameOnlyRecords Person [] =
        ([], some (.MissingColumn name)) ∧
      reversedRuntime.rangeOrder (buildStructFields reversedRuntime Person).keys =
        before ++ name :: after ∧
      (∀ k ∈ before, k ∈ headerRow NewCSV2Struct nameOnlyRecords) ∧
      name ∉ headerRow NewCSV2Struct nameOnlyRecords :=
  ⟨by decide, by decide,
    (LoadCSV_missing_column_in_range_order reversedRuntime NewCSV2Struct nameOnlyRecords
      Person [] (by decide) (by decide)).imp (fun _ h => h.imp (fun _ h => h.imp
        (fun _ h => ⟨h.1, h.2.1, h.2.2.1, h.2.2.2.1⟩)))⟩

/-- C18: on at least two rows, when the custom map binds the column name `E` of a field to
another name and `E` does not occur in the renamed header row, `LoadCSV` returns the error
"missing required column" and leaves the slice behind `out` as it was.  The custom map is
applied to the headers, a raw header `E` becoming the other name, so that `E` is absent from
the renamed header row whenever no other raw header is renamed to `E`; it is not applied to
the column names of the fields.  `GetColumnType` with the same custom map reports the field
under the other name. -/
theorem LoadCSV_renamed_field_missing (L : Runtime) (c : CSV2Struct)
    (records : List (List GoString)) (structType : List StructField) (out : List Record)
    (field : StructField) (customName : GoString)
    (hrows : 2 ≤ records.length) (hfield : field ∈ structType)
    (hmap : c.customMap.get? (colName L field) = some customName)
    (hne : customName ≠ colName L field)
    (habsent : colName L field ∉ headerRow c records) :
    (∃ name, LoadCSV L c records structType out = (out, some (.MissingColumn name)) ∧
      name ∉ headerRow c records ∧ ∃ f ∈ structType, colName L f = name) ∧
    (∀ i : Nat, (records.headD [])[i]? = some (colName L field) →
      (headerRow c records)[i]? = some customName) ∧
    ((∀ h ∈ records.headD [], h ≠ colName L field →
        renamed c.customMap h ≠ colName L field) →
      colName L field ∉ headerRow c records) ∧
    reportName L c field = customName ∧
    customName ∈ (GetColumnType L c structType).keys ∧
    (GetColumnType L c structType).get? customName ≠ none := by
  have hreport : reportName L c field = customName := by
    simp [reportName, renamed, hmap]
  have hkey : customName ∈ (GetColumnType L c structType).keys := by
    rw [GetColumnType_eq_foldl, mem_keys_foldl_set]
    exact Or.inr ⟨field, hfield, hreport⟩
  refine ⟨?_, ?_, ?_, hreport, hkey, ?_⟩
  · obtain ⟨name, hm⟩ := missingColumn_isSome L structType (headerRow c records)
      ⟨field, hfield, habsent⟩
    obtain ⟨hk, habs⟩ := missingColumn_eq_some L _ _ name hm
    exact ⟨name, LoadCSV_of_missing L c records structType out name hrows hm, habs,
      (mem_keys_buildStructFields L structType name).mp hk⟩
  · intro i hi
    rw [headerRow, resolveHeaders_eq_map, List.getElem?_map, hi]
    simp [renamed, hmap]
  · intro hothers hmem
    rw [headerRow, resolveHeaders_eq_map] at hmem
    obtain ⟨h, hh, heq⟩ := List.mem_map.mp hmem
    by_cases hE : h = colName L field
    · rw [hE] at heq
      simp only [renamed, hmap] at heq
      exact hne heq
    · exact hothers h hh hE heq
  · intro hnone
    exact ((GoMap.get?_eq_none_iff _ _).mp hnone) hkey

/-- C18, on the rows of `example/example.csv` with the custom map of `TestCustomMap`: the
header row becomes full_name, years, email and the load fails, while the report has the key
full_name. -/
theorem LoadCSV_renamed_field_missing_witness :
    2 ≤ exampleRecords.length ∧
    (⟨str "Name", [], RType.string, str "csv:\"name\""⟩ : StructField) ∈ Person ∧
    testCustomMap.get? (str "name") = some (str "full_name") ∧
    str "full_name" ≠ str "name" ∧
    headerRow (SetCustomMap NewCSV2Struct testCustomMap) exampleRecords =
      [str "full_name", str "years", str "email"] ∧
    (∃ name, LoadCSV exampleRuntime (SetCustomMap NewCSV2Struct testCustomMap) exampleRecords
        Person [] = ([], some (.MissingColumn name)) ∧
      name ∉ headerRow (SetCustomMap NewCSV2Struct testCustomMap) exampleRecords ∧
      ∃ f ∈ Person, colName exampleRuntime f = name) ∧
    str "full_name" ∈
      (GetColumnType exampleRuntime (SetCustomMap NewCSV2Struct testCustomMap) Person).keys :=
  ⟨by decide, by decide, by decide, by decide, by decide,
    (LoadCSV_renamed_field_missing exampleRuntime (SetCustomMap NewCSV2Struct testCustomMap)
      exampleRecords Person [] ⟨str "Name", [], RType.string, str "csv:\"name\""⟩
      (str "full_name") (by decide) (by decide) (by decide) (by decide) (by decide)).1,
    (LoadCSV_renamed_field_missing exampleRuntime (SetCustomMap NewCSV2Struct testCustomMap)
      exampleRecords Person [] ⟨str "Name", [], RType.string, str "csv:\"name\""⟩
      (str "full_name") (by decide) (by decide) (by decide) (by decide) (by decide)).2.2.2.2.1⟩

/-! ## Duplicate column names and duplicate headers -/

/-- C17: when two or more fields declare the same column name, `structFields` binds the name
to the last of them in declaration order.  No error arises from the duplication: with every
column present and every written cell accepted the load returns no error; in every struct
value it appends, the last field with the name holds what `setFieldValue` makes of the cell
in the last column within the row headed by that name, and every earlier field with the
name holds the zero value of its type. -/
theorem LoadCSV_duplicate_column_name (L : Runtime) (c : CSV2Struct)
    (records : List (List GoString)) (structType : List StructField) (out : List Record)
    (hrows : 2 ≤ records.length)
    (hpresent : ∀ field ∈ structType, colName L field ∈ headerRow c records)
    (hcoerce : ∀ record ∈ records.drop 1, ∀ i < record.length,
      cellCoerces L c records structType record i = true) :
    ∃ recs : List Record,
      LoadCSV L c records structType out = (out ++ recs, none) ∧
      recs.length = records.length - 1 ∧
      ∀ (j j' : Nat) (field field' : StructField), j < j' → structType[j]? = some field →
        structType[j']? = some field' → colName L field' = colName L field →
        (∃ (l : Nat) (last : StructField),
          (buildStructFields L structType).get? (colName L field) = some l ∧ j' ≤ l ∧
          structType[l]? = some last ∧ colName L last = colName L field ∧
          (∀ (l' : Nat) f', l < l' → structType[l']? = some f' →
            colName L f' ≠ colName L field) ∧
          ∀ (k : Nat) record rec (t : Nat) cell, (records.drop 1)[k]? = some record →
            recs[k]? = some rec → record[t]? = some cell →
            (headerRow c records)[t]? = some (colName L field) →
            (∀ t' : Nat, t < t' → t' < record.length →
              (headerRow c records)[t']? ≠ some (colName L field)) →
            ∃ v, setFieldValue L last cell = .ok v ∧ rec[l]? = some v) ∧
        (∀ (k : Nat) rec, recs[k]? = some rec → rec[j]? = some (zeroValue field.Typ)) := by
  rw [LoadCSV_of_present L c records structType out hrows hpresent]
  obtain ⟨recs, happ, hlen, hrecs⟩ := appendRows_ok L structType (headerRow c records)
    (buildStructFields L structType) (records.drop 1) out
    (fun record hmem => rowElem_ok L c records structType record (hcoerce record hmem))
  refine ⟨recs, happ, by rw [hlen]; simp, ?_⟩
  intro j j' field field' hjj hj hj' hcol
  constructor
  · cases hg : (buildStructFields L structType).get? (colName L field) with
    | none =>
      exact absurd ((mem_keys_buildStructFields L structType _).mpr
        ⟨field, List.getElem?_mem hj, rfl⟩) ((GoMap.get?_eq_none_iff _ _).mp hg)
    | some l =>
      obtain ⟨last, hl, hk, hlater⟩ :=
        (buildStructFields_get? L structType (colName L field) l).mp hg
      have hle : j' ≤ l := by
        by_contra hlt
        exact hlater j' field' (by omega) hj' hcol
      refine ⟨l, last, rfl, hle, hl, hk, hlater, ?_⟩
      intro k record rec t cell hk' hrec hc hhead hlast
      obtain ⟨rec', hrec', hok⟩ := hrecs k record hk'
      rw [hrec] at hrec'
      simp only [Option.some.injEq] at hrec'
      subst hrec'
      obtain ⟨_, _, h3⟩ := rowElem_spec L c records structType record rec hok
      apply h3 t cell l last hc
      · rw [targetField_eq_some]
        exact ⟨hl, by rw [hk]; exact hhead, by rw [hk]; exact hlater⟩
      · intro t' htt hlt
        rw [hhead]
        exact hlast t' htt hlt
  · intro k rec hrec
    have hklt : k < (records.drop 1).length := by
      rw [← hlen]
      exact (List.getElem?_eq_some.mp hrec).1
    obtain ⟨rec', hrec', hok⟩ := hrecs k _ (List.getElem?_eq_getElem hklt)
    rw [hrec] at hrec'
    simp only [Option.some.injEq] at hrec'
    subst hrec'
    obtain ⟨_, h2, _⟩ := fillElem_spec L structType (headerRow c records)
      (buildStructFields L structType) _ 0 (newElem structType) rec hok
    rw [h2 j]
    · simp [newElem, hj]
    · intro t cell fieldIndex f _ ht hidx
      subst hidx
      rw [Nat.zero_add] at ht
      obtain ⟨hf, _, hlater⟩ := (targetField_eq_some L structType _ t fieldIndex f).mp ht
      rw [hj] at hf
      simp only [Option.some.injEq] at hf
      subst hf
      exact hlater j' field' hjj hj' hcol

/-- C17, on the struct type `aliasPerson`, whose fields `Name` and `Alias` both declare the
column name `name`: the struct value is ("", John Doe, 30). -/
theorem LoadCSV_duplicate_column_name_witness :
    2 ≤ nameAgeRecords.length ∧
    (∀ field ∈ aliasPerson,
      colName exampleRuntime field ∈ headerRow NewCSV2Struct nameAgeRecords) ∧
    (∀ record ∈ nameAgeRecords.drop 1, ∀ i < record.length,
      cellCoerces exampleRuntime NewCSV2Struct nameAgeRecords aliasPerson record i = true) ∧
    LoadCSV exampleRuntime NewCSV2Struct nameAgeRecords aliasPerson [] =
      ([[.str [], .str (str "John Doe"), .int 30]], none) ∧
    (buildStructFields exampleRuntime aliasPerson).get? (str "name") = some 1 ∧
    ∃ recs : List Record,
      LoadCSV exampleRuntime NewCSV2Struct nameAgeRecords aliasPerson [] = ([] ++ recs, none) ∧
      recs.length = nameAgeRecords.length - 1 :=
  ⟨by decide, by decide, by decide, by decide, by decide,
    (LoadCSV_duplicate_column_name exampleRuntime NewCSV2Struct nameAgeRecords aliasPerson []
      (by decide) (by decide) (by decide)).imp (fun _ h => ⟨h.1, h.2.1⟩)⟩

/-! ## The records the reader passes on -/

theorem fieldCountError_eq_none (n : Nat) (rest : List (List GoString)) :
    ∀ i : Nat, fieldCountError n i rest = none ↔ ∀ record ∈ rest, record.length = n := by
  induction rest with
  | nil => intro i; simp [fieldCountError]
  | cons record rest ih =>
    intro i
    rw [fieldCountError]
    by_cases h : record.length = n
    · simp [h, ih]
    · simp [h]

theorem fieldCountError_eq_some (n : Nat) (rest : List (List GoString)) :
    ∀ i e : Nat, fieldCountError n i rest = some e →
      i ≤ e ∧ (∃ bad, rest[e - i]? = some bad ∧ bad.length ≠ n) ∧
        ∀ (t : Nat) record, t < e - i → rest[t]? = some record → record.length = n := by
  induction rest with
  | nil => intro i e h; simp [fieldCountError] at h
  | cons record rest ih =>
    intro i e h
    rw [fieldCountError] at h
    by_cases hlen : record.length = n
    · rw [if_neg (by simpa using hlen)] at h
      obtain ⟨hle, ⟨bad, hbad, hne⟩, hbefore⟩ := ih (i + 1) e h
      refine ⟨by omega, ⟨bad, ?_, hne⟩, ?_⟩
      · rw [show e - i = (e - (i + 1)) + 1 by omega]
        simpa using hbad
      · intro t r ht hr
        cases t with
        | zero =>
          have : record = r := by simpa using hr
          rw [← this]
          exact hlen
        | succ t => exact hbefore t r (by omega) (by simpa using hr)
    · rw [if_pos hlen] at h
      simp only [Option.some.injEq] at h
      subst h
      refine ⟨le_refl _, ⟨record, by simp, hlen⟩, ?_⟩
      intro t r ht
      omega

theorem headerRow_length (c : CSV2Struct) (rows : List (List GoString)) :
    (headerRow c rows).length = (rows.headD []).length := by
  rw [headerRow, resolveHeaders_eq_map, List.length_map]

/-- The reader passes the records on exactly when all of them have as many fields as the
first; it then passes them on as they are. -/
theorem ReadAll_eq_ok (rows records : List (List GoString)) :
    ReadAll rows = .ok records ↔
      records = rows ∧ ∀ record ∈ rows, record.length = (rows.headD []).length := by
  cases rows with
  | nil =>
    simp only [ReadAll, Except.ok.injEq, List.not_mem_nil, false_implies, implies_true,
      and_true]
    exact eq_comm
  | cons first rest =>
    simp only [ReadAll, List.headD_cons, List.mem_cons, forall_eq_or_imp, true_and]
    cases hf : fieldCountError first.length 1 rest with
    | none =>
      simp only [Except.ok.injEq]
      exact ⟨fun h => ⟨h.symm, (fieldCountError_eq_none _ _ 1).mp hf⟩, fun h => h.1.symm⟩
    | some e =>
      constructor
      · intro h
        cases h
      · rintro ⟨_, hall⟩
        rw [(fieldCountError_eq_none _ _ 1).mpr hall] at hf
        cases hf

/-- A load from the file that returns no error read records that all have the length of the
header row, and is the load of those records. -/
theorem LoadCSVFile_success (L : Runtime) (c : CSV2Struct) (rows : List (List GoString))
    (structType : List StructField) (out out' : List Record)
    (h : LoadCSVFile L c rows structType out = (out', none)) :
    (∀ record ∈ rows, record.length = (headerRow c rows).length) ∧
      LoadCSV L c rows structType out = (out', none) := by
  unfold LoadCSVFile at h
  cases hr : ReadAll rows with
  | error err =>
    rw [hr] at h
    simp at h
  | ok records =>
    rw [hr] at h
    obtain ⟨rfl, hrect⟩ := (ReadAll_eq_ok rows records).mp hr
    simp only [Prod.mk.injEq, Option.map_eq_none'] at h
    refine ⟨?_, Prod.ext h.1 h.2⟩
    intro record hmem
    rw [headerRow_length]
    exact hrect record hmem

/-- The struct values a load without error appends: one per data row, each the result of the
inner loop on that row. -/
theorem LoadCSV_success_rows (L : Runtime) (c : CSV2Struct) (records : List (List GoString))
    (structType : List StructField) (out out' : List Record)
    (h : LoadCSV L c records structType out = (out', none)) :
    ∃ recs : List Record, out' = out ++ recs ∧ recs.length = records.length - 1 ∧
      ∀ (k : Nat) record, (records.drop 1)[k]? = some record →
        ∃ rec, recs[k]? = some rec ∧ rowElem L c records structType record = .ok rec := by
  obtain ⟨_, _, happ⟩ := LoadCSV_success L c records structType out out' h
  obtain ⟨recs, hout, _, hrecs, hnone, _⟩ := appendRows_spec _ _ _ _ _ _ _ _ happ
  have hl := hnone rfl
  refine ⟨recs, hout, by rw [hl]; simp, ?_⟩
  intro k record hk
  have hklt : k < recs.length := by
    rw [hl]
    exact (List.getElem?_eq_some.mp hk).1
  exact hrecs k record hklt hk

theorem exists_last_index (x : GoString) (l : List GoString) (h : x ∈ l) :
    ∃ t : Nat, l[t]? = some x ∧ ∀ t' : Nat, t < t' → l[t']? ≠ some x := by
  induction l with
  | nil => simp at h
  | cons a rest ih =>
    by_cases hx : x ∈ rest
    · obtain ⟨t, ht, hlast⟩ := ih hx
      refine ⟨t + 1, by simpa using ht, ?_⟩
      intro t' htt
      cases t' with
      | zero => omega
      | succ t' => simpa using hlast t' (by omega)
    · have hxa : x = a := by
        rcases List.mem_cons.mp h with h1 | h1
        · exact h1
        · exact absurd h1 hx
      refine ⟨0, by simp [hxa], ?_⟩
      intro t' htt
      cases t' with
      | zero => omega
      | succ t' =>
        intro hget
        exact hx (List.getElem?_mem (by simpa using hget))

/-! ## Rows shorter than the header row -/

/-- C7, as stated, fails: every column of `Person` is present in `shortRecords` and its first
data row has two cells under three headers, yet the row is an error.  The reader rejects it
with "wrong number of fields", `LoadCSV` returns that error, and no struct value is
appended. -/
theorem LoadCSVFile_short_row_counterexample :
    (∀ field ∈ Person, colName exampleRuntime field ∈ headerRow NewCSV2Struct shortRecords) ∧
    (shortRecords.drop 1)[0]? = some [str "John Doe", str "30"] ∧
    [str "John Doe", str "30"].length < (headerRow NewCSV2Struct shortRecords).length ∧
    LoadCSVFile exampleRuntime NewCSV2Struct shortRecords Person [] =
      ([], some (.Read (.FieldCount 1))) := by
  decide

/-- C7, amended: a data row shorter than the header row makes `LoadCSV` fail, whether or not
every column is present: the reader returns "wrong number of fields" for the first row whose
length is not that of the header row, `LoadCSV` returns that error and the slice behind `out`
is left as it was.  Hence, when the load returns no error, every data row has the length of
the header row: every field has a column headed by its column name within the row, so that
no field is left at its zero value for want of a cell, and the field a column is written to
holds what `setFieldValue` makes of the cell, unless a later column has the same header. -/
theorem LoadCSVFile_short_row (L : Runtime) (c : CSV2Struct) (rows : List (List GoString))
    (structType : List StructField) (out : List Record) :
    (∀ (k : Nat) record, (rows.drop 1)[k]? = some record →
      record.length < (headerRow c rows).length →
      ∃ i : Nat,
        LoadCSVFile L c rows structType out = (out, some (.Read (.FieldCount i))) ∧
        1 ≤ i ∧ i ≤ k + 1 ∧
        ∃ bad, rows[i]? = some bad ∧ bad.length ≠ (headerRow c rows).length) ∧
    (∀ out' : List Record, LoadCSVFile L c rows structType out = (out', none) →
      ∃ recs : List Record, out' = out ++ recs ∧ recs.length = rows.length - 1 ∧
        ∀ (k : Nat) record, (rows.drop 1)[k]? = some record →
          record.length = (headerRow c rows).length ∧
          ∃ rec, recs[k]? = some rec ∧
            (∀ (j : Nat) field, structType[j]? = some field →
              ∃ t : Nat, t < record.length ∧
                (headerRow c rows)[t]? = some (colName L field)) ∧
            (∀ (t : Nat) cell (j : Nat) field, record[t]? = some cell →
              targetField structType (headerRow c rows) (buildStructFields L structType) t =
                some (j, field) →
              (∀ t' : Nat, t < t' → t' < record.length →
                (headerRow c rows)[t']? ≠ (headerRow c rows)[t]?) →
              ∃ v, setFieldValue L field cell = .ok v ∧ rec[j]? = some v)) := by
  constructor
  · intro k record hk hshort
    cases rows with
    | nil => simp at hk
    | cons first rest =>
      rw [headerRow_length] at hshort ⊢
      simp only [List.headD_cons, List.drop_succ_cons, List.drop_zero] at hshort hk ⊢
      cases hf : fieldCountError first.length 1 rest with
      | none =>
        have := (fieldCountError_eq_none _ _ 1).mp hf record (List.getElem?_mem hk)
        omega
      | some e =>
        obtain ⟨hle, ⟨bad, hbad, hne⟩, hbefore⟩ := fieldCountError_eq_some _ _ 1 e hf
        have hek : e - 1 ≤ k := by
          by_contra hgt
          have := hbefore k record (by omega) hk
          omega
        refine ⟨e, ?_, hle, by omega, bad, ?_, hne⟩
        · simp only [LoadCSVFile, ReadAll, hf]
        · rw [show e = (e - 1) + 1 by omega]
          simpa using hbad
  · intro out' hload
    obtain ⟨hrect, hloaded⟩ := LoadCSVFile_success L c rows structType out out' hload
    obtain ⟨_, hpresent, _⟩ := LoadCSV_success L c rows structType out out' hloaded
    obtain ⟨recs, hout, hlen, hrecs⟩ := LoadCSV_success_rows L c rows structType out out' hloaded
    refine ⟨recs, hout, hlen, ?_⟩
    intro k record hk
    have hreclen : record.length = (headerRow c rows).length :=
      hrect record (List.mem_of_mem_drop (List.getElem?_mem hk))
    obtain ⟨rec, hrec, hok⟩ := hrecs k record hk
    obtain ⟨_, _, h3⟩ := rowElem_spec L c rows structType record rec hok
    refine ⟨hreclen, rec, hrec, ?_, h3⟩
    intro j field hj
    obtain ⟨t, ht⟩ := List.getElem?_of_mem (hpresent field (List.getElem?_mem hj))
    exact ⟨t, by rw [hreclen]; exact (List.getElem?_eq_some.mp ht).1, ht⟩

/-- C7 amended, on `shortRecords`, rejected by the reader at its first data row, and on the
rows of `example/example.csv`, all of the length of the header row. -/
theorem LoadCSVFile_short_row_witness :
    (shortRecords.drop 1)[0]? = some [str "John Doe", str "30"] ∧
    [str "John Doe", str "30"].length < (headerRow NewCSV2Struct shortRecords).length ∧
    (∃ i : Nat,
      LoadCSVFile exampleRuntime NewCSV2Struct shortRecords Person [] =
        ([], some (.Read (.FieldCount i))) ∧
      1 ≤ i ∧ i ≤ 0 + 1 ∧
      ∃ bad, shortRecords[i]? = some bad ∧
        bad.length ≠ (headerRow NewCSV2Struct shortRecords).length) ∧
    LoadCSVFile exampleRuntime NewCSV2Struct exampleRecords Person [] =
      ([[.str (str "John Doe"), .int 30, .str (str "j@x.com")],
        [.str (str "Jane"), .int 25, .str (str "jane@x.com")]], none) ∧
    ∃ recs : List Record,
      [[Value.str (str "John Doe"), .int 30, .str (str "j@x.com")],
        [.str (str "Jane"), .int 25, .str (str "jane@x.com")]] = [] ++ recs ∧
      recs.length = exampleRecords.length - 1 :=
  ⟨by decide, by decide,
    (LoadCSVFile_short_row exampleRuntime NewCSV2Struct shortRecords Person []).1 0
      [str "John Doe", str "30"] (by decide) (by decide),
    by decide,
    ((LoadCSVFile_short_row exampleRuntime NewCSV2Struct exampleRecords Person []).2 _
      (by decide)).imp (fun _ h => ⟨h.1, h.2.1⟩)⟩

/-! ## Duplicate headers -/

/-- C19, as stated, fails: with the header `name` at positions 0 and 1 and the fields `Name`
and `Alias` both declaring the column name `name`, the load returns no error and the field
`Name` holds in neither struct value the cell of the greater of the two positions, `Johnny`
and `Janie`, but its zero value; only `Alias`, the last field with that column name, holds
it. -/
theorem LoadCSVFile_duplicate_header_counterexample :
    (headerRow NewCSV2Struct twoNameRecords)[0]? = some (str "name") ∧
    (headerRow NewCSV2Struct twoNameRecords)[1]? = some (str "name") ∧
    aliasPerson.map (colName exampleRuntime) = [str "name", str "name", str "age"] ∧
    (∀ record ∈ twoNameRecords, record.length = 3) ∧
    LoadCSVFile exampleRuntime NewCSV2Struct twoNameRecords aliasPerson [] =
      ([[.str [], .str (str "Johnny"), .int 30], [.str [], .str (str "Janie"), .int 25]],
        none) := by
  decide

/-- C19, amended: when `LoadCSV` returns no error, then for every data row and every field
that is the last in declaration order with its column name, the field holds what
`setFieldValue` makes of the cell at the greatest position at which the renamed header row
holds that column name.  That position lies within the row, every row read having the length
of the header row, so that the field is not left at its zero value for want of such a
position. -/
theorem LoadCSVFile_duplicate_header (L : Runtime) (c : CSV2Struct)
    (rows : List (List GoString)) (structType : List StructField) (out out' : List Record)
    (hload : LoadCSVFile L c rows structType out = (out', none)) :
    ∃ recs : List Record, out' = out ++ recs ∧ recs.length = rows.length - 1 ∧
      ∀ (k : Nat) record, (rows.drop 1)[k]? = some record →
        record.length = (headerRow c rows).length ∧
        ∃ rec, recs[k]? = some rec ∧
          ∀ (j : Nat) field, structType[j]? = some field →
            (∀ (j' : Nat) f', j < j' → structType[j']? = some f' →
              colName L f' ≠ colName L field) →
            ∃ (t : Nat) (cell : GoString) (v : Value), t < record.length ∧
              (headerRow c rows)[t]? = some (colName L field) ∧
              (∀ t' : Nat, t < t' → (headerRow c rows)[t']? ≠ some (colName L field)) ∧
              record[t]? = some cell ∧ setFieldValue L field cell = .ok v ∧
              rec[j]? = some v := by
  obtain ⟨hrect, hloaded⟩ := LoadCSVFile_success L c rows structType out out' hload
  obtain ⟨_, hpresent, _⟩ := LoadCSV_success L c rows structType out out' hloaded
  obtain ⟨recs, hout, hlen, hrecs⟩ := LoadCSV_success_rows L c rows structType out out' hloaded
  refine ⟨recs, hout, hlen, ?_⟩
  intro k record hk
  have hreclen : record.length = (headerRow c rows).length :=
    hrect record (List.mem_of_mem_drop (List.getElem?_mem hk))
  obtain ⟨rec, hrec, hok⟩ := hrecs k record hk
  obtain ⟨_, _, h3⟩ := rowElem_spec L c rows structType record rec hok
  refine ⟨hreclen, rec, hrec, ?_⟩
  intro j field hj hlastField
  obtain ⟨t, ht, hlast⟩ := exists_last_index (colName L field) (headerRow c rows)
    (hpresent field (List.getElem?_mem hj))
  have htlt : t < record.length := by
    rw [hreclen]
    exact (List.getElem?_eq_some.mp ht).1
  obtain ⟨v, hv, hrv⟩ := h3 t record[t] j field (List.getElem?_eq_getElem htlt)
    ((targetField_eq_some L structType _ t j field).mpr ⟨hj, ht, hlastField⟩)
    (by
      intro t' htt _
      rw [ht]
      exact hlast t' htt)
  exact ⟨t, record[t], v, htlt, ht, hlast, List.getElem?_eq_getElem htlt, hv, hrv⟩

/-- C19 amended, on the file with the header `name` at positions 0 and 1 and the struct type
with the fields `Name` and `Age`: the struct values are (Johnny, 30) and (Janie, 25). -/
theorem LoadCSVFile_duplicate_header_witness :
    LoadCSVFile exampleRuntime NewCSV2Struct twoNameRecords nameAge [] =
      ([[.str (str "Johnny"), .int 30], [.str (str "Janie"), .int 25]], none) ∧
    ∃ recs : List Record,
      [[Value.str (str "Johnny"), .int 30], [.str (str "Janie"), .int 25]] = [] ++ recs ∧
      recs.length = twoNameRecords.length - 1 :=
  ⟨by decide,
    (LoadCSVFile_duplicate_header exampleRuntime NewCSV2Struct twoNameRecords nameAge [] _
      (by decide)).imp (fun _ h => ⟨h.1, h.2.1⟩)⟩

/-! ## Struct synthesis from a header-only file -/

/-- C12, as stated, fails in its second half: the header-only file `id,id` has two headers
and no data row, and `GenerateStruct` does not succeed on it but ends in the panic
"reflect.StructOf: duplicate field Id". -/
theorem GenerateStructFile_header_only_counterexample :
    [[str "id", str "id"]].length = 1 ∧
    (∀ record ∈ [[str "id", str "id"]], record ≠ []) ∧
    GenerateStructFile exampleRuntime NewCSV2Struct [[str "id", str "id"]] =
      .ok (.panic (.DuplicateField (str "Id"))) := by
  decide

/-- C12, amended: on the records of a file, none of which is without fields,
`GenerateStruct` returns the error "CSV file must have at least one header row" when the
header row has no header, and on a header-only file, one header row and no data row, it
returns a struct type with one field per header provided that every header is non-empty,
does not start with an underscore and capitalises to a name `reflect.StructOf` accepts as an
identifier, no two headers capitalising to the same name. -/
theorem GenerateStructFile_rows (L : Runtime) (c : CSV2Struct) (rows : List (List GoString))
    (hfields : ∀ record ∈ rows, record ≠ []) :
    (rows.headD [] = [] → GenerateStructFile L c rows = .ok (.error .EmptyInput)) ∧
    (rows.length = 1 →
      (∀ h ∈ rows.headD [], h ≠ [] ∧ h.head? ≠ some 95 ∧
        L.isValidFieldName (capitalize h) = true) →
      ((rows.headD []).map capitalize).Nodup →
      GenerateStructFile L c rows = .ok (.ok ((rows.headD []).map headerField))) := by
  constructor
  · intro hhead
    cases rows with
    | nil => rfl
    | cons first rest =>
      exact absurd (by simpa using hhead) (hfields first (List.mem_cons_self _ _))
  · intro hone hvalid hdistinct
    cases rows with
    | nil => simp at hone
    | cons headers rest =>
      have hrest : rest = [] := by
        cases rest with
        | nil => rfl
        | cons _ _ => simp at hone
      subst hrest
      simp only [List.headD_cons] at hvalid hdistinct ⊢
      have hloop : structOfLoop L 0 [] [] (headers.map headerField) = none := by
        apply structOfLoop_none
        · intro field hf
          obtain ⟨h, hh, rfl⟩ := List.mem_map.mp hf
          obtain ⟨h1, h2, h3⟩ := hvalid h hh
          obtain ⟨g1, g2, g3⟩ := capitalize_head h h1 h2
          exact ⟨g1, h3, rfl, g2, g3⟩
        · simpa [List.map_map, Function.comp_def, headerField] using hdistinct
        · intro field _
          simp
      simp only [GenerateStructFile, ReadAll, fieldCountError, GenerateStruct_cons, StructOf,
        hloop]

/-- C12 amended, on the file without any record and on the header row of
`example/example.csv` alone. -/
theorem GenerateStructFile_rows_witness :
    (∀ record ∈ ([] : List (List GoString)), record ≠ []) ∧
    (∀ record ∈ [[str "name", str "age", str "email"]], record ≠ []) ∧
    GenerateStructFile exampleRuntime NewCSV2Struct [] = .ok (.error .EmptyInput) ∧
    GenerateStructFile exampleRuntime NewCSV2Struct [[str "name", str "age", str "email"]] =
      .ok (.ok ([str "name", str "age", str "email"].map headerField)) :=
  ⟨by decide, by decide,
    (GenerateStructFile_rows exampleRuntime NewCSV2Struct [] (by decide)).1 (by decide),
    (GenerateStructFile_rows exampleRuntime NewCSV2Struct
      [[str "name", str "age", str "email"]] (by decide)).2 (by decide) (by decide)
      (by decide)⟩

/-! ## Integers, on fields that can and cannot be set -/

/-- C13, as stated, fails: on the field `age int`, which is not exported, the cell `30`, a
base-10 signed integer denoting 30, is not stored, and neither it nor the cell `abc` gives
the error "failed to convert"; `setFieldValue` returns "cannot set value for field int" for
both. -/
theorem setFieldValue_int_unexported_counterexample :
    unexportedAge.Typ.Kind = .Int ∧
    IsSignedDecimal (str "30") 30 ∧
    setFieldValue exampleRuntime unexportedAge (str "30") = .error (.CannotSet (str "int")) ∧
    setFieldValue exampleRuntime unexportedAge (str "abc") = .error (.CannotSet (str "int")) :=
  ⟨by decide, (Atoi_eq_some_iff (str "30") 30).mp (by decide), by decide, by decide⟩

/-- C13, amended: on a field of kind `int` that can be set, which is an exported one,
`setFieldValue` stores `n` exactly when the cell is a base-10 signed integer, an optional
sign followed by one or more ASCII decimal digits, that denotes `n` and fits the range of
the 64-bit `int`; on every other cell it returns the error "failed to convert" for the cell
and the type `int`.  In particular it does so on the empty cell, on a cell with a byte other
than a digit after its first byte (trailing whitespace, inner characters), on a cell that
starts with a byte that is neither a digit nor a sign (leading whitespace), and on an
unsigned run of digits from 2^63 up.  On a field of kind `int` that cannot be set it returns
the error "cannot set value for field" whatever the cell. -/
theorem setFieldValue_int (L : Runtime) (field : StructField) (s : GoString)
    (hkind : field.Typ.Kind = .Int) :
    (field.PkgPath ≠ [] → setFieldValue L field s = .error (.CannotSet field.Typ.Name)) ∧
    (field.PkgPath = [] →
      (∀ n : Int, setFieldValue L field s = .ok (.int n) ↔ IsSignedDecimal s n) ∧
      (∀ v, setFieldValue L field s = .ok v → ∃ n, v = .int n ∧ IsSignedDecimal s n) ∧
      ((∀ n, ¬ IsSignedDecimal s n) →
        setFieldValue L field s = .error (.TypeCoercionError s (str "int"))) ∧
      (∀ e, setFieldValue L field s = .error e →
        e = .TypeCoercionError s (str "int") ∧ ∀ n, ¬ IsSignedDecimal s n) ∧
      (s = [] → setFieldValue L field s = .error (.TypeCoercionError s (str "int"))) ∧
      ((∃ b ∈ s.drop 1, ¬ (48 ≤ b.toNat ∧ b.toNat ≤ 57)) →
        setFieldValue L field s = .error (.TypeCoercionError s (str "int"))) ∧
      ((∃ b, s.head? = some b ∧ ¬ (48 ≤ b.toNat ∧ b.toNat ≤ 57) ∧ b ≠ 43 ∧ b ≠ 45) →
        setFieldValue L field s = .error (.TypeCoercionError s (str "int"))) ∧
      ((∀ d ∈ s, 48 ≤ d.toNat ∧ d.toNat ≤ 57) → 2 ^ (intSize - 1) ≤ decimalValue s →
        setFieldValue L field s = .error (.TypeCoercionError s (str "int")))) := by
  constructor
  · intro hp
    simp [setFieldValue, hp]
  intro hset
  have heq := setFieldValue_int_eq L field s hset hkind
  have hfail : (∀ n, ¬ IsSignedDecimal s n) →
      setFieldValue L field s = .error (.TypeCoercionError s (str "int")) := by
    intro hno
    rw [heq]
    cases ha : Atoi s with
    | none => rfl
    | some n => exact absurd ((Atoi_eq_some_iff s n).mp ha) (hno n)
  refine ⟨?_, ?_, hfail, ?_, ?_, ?_, ?_, ?_⟩
  · intro n
    rw [heq, ← Atoi_eq_some_iff]
    cases ha : Atoi s with
    | none => simp
    | some m => simp
  · intro v hv
    rw [heq] at hv
    cases ha : Atoi s with
    | none => rw [ha] at hv; cases hv
    | some m =>
      rw [ha] at hv
      simp only [Except.ok.injEq] at hv
      exact ⟨m, hv.symm, (Atoi_eq_some_iff s m).mp ha⟩
  · intro e he
    rw [heq] at he
    cases ha : Atoi s with
    | some m => rw [ha] at he; cases he
    | none =>
      rw [ha] at he
      simp only [Except.error.injEq] at he
      refine ⟨he.symm, ?_⟩
      intro n hn
      rw [(Atoi_eq_some_iff s n).mpr hn] at ha
      cases ha
  · rintro rfl
    apply hfail
    rintro n ⟨sign, digits, hs, _, hne, _⟩
    exact hne (List.append_eq_nil.mp hs.symm).2
  · exact fun h => hfail (not_isSignedDecimal_of_tail s h)
  · exact fun h => hfail (not_isSignedDecimal_of_head s h)
  · exact fun hall hbig => hfail (not_isSignedDecimal_of_overflow s hall hbig)

/-- C13 amended, on the field `Age int` of `Person` and the cell `30`, with the outcome on
the kinds of cell the specification names: the empty cell, ` 42`, `42 `, `4x2` and 2^63 are
rejected; `+7` and -2^63 are stored. -/
theorem setFieldValue_int_witness :
    ageField.Typ.Kind = .Int ∧ ageField.PkgPath = [] ∧
    IsSignedDecimal (str "30") 30 ∧
    setFieldValue exampleRuntime ageField [] = .error (.TypeCoercionError [] (str "int")) ∧
    setFieldValue exampleRuntime ageField (str " 42") =
      .error (.TypeCoercionError (str " 42") (str "int")) ∧
    setFieldValue exampleRuntime ageField (str "42 ") =
      .error (.TypeCoercionError (str "42 ") (str "int")) ∧
    setFieldValue exampleRuntime ageField (str "4x2") =
      .error (.TypeCoercionError (str "4x2") (str "int")) ∧
    setFieldValue exampleRuntime ageField (str "9223372036854775808") =
      .error (.TypeCoercionError (str "9223372036854775808") (str "int")) ∧
    setFieldValue exampleRuntime ageField (str "+7") = .ok (.int 7) ∧
    setFieldValue exampleRuntime ageField (str "-9223372036854775808") =
      .ok (.int (-9223372036854775808)) :=
  ⟨by decide, by decide,
    (((setFieldValue_int exampleRuntime ageField (str "30") (by decide)).2 (by decide)).1
      30).mp (by decide),
    by decide, by decide, by decide, by decide, by decide, by decide, by decide⟩

end Csv2struct
